import Mathlib

/-!
# Differential-drive core of `roboclaw` (`src/diffdrive_roscore.cpp`)

A shallow embedding of the two callbacks of `roboclaw::diffdrive_roscore`:

* `twist_callback`   : velocity command  →  wheel setpoints and filtered command echo;
* `encoder_callback` : encoder sample    →  odometry sample, transform and new estimator state.

Conventions of the embedding.

* A C++ `int` is a 32-bit two's complement integer, embedded in `Int`.  The result of an
  `int` addition, subtraction or negation whose mathematical value is `z` is `wrap z`,
  where `wrap` is `wrap32` (reduction modulo `2^32` into `[-2^31, 2^31)`, what the
  compiled code does where C++ leaves signed overflow undefined).  `encoder_callback`
  takes `wrap` as a parameter, so that the one statement that treats the counts as
  unbounded integers can be made with `wrap = id`; everywhere else `wrap` is `wrap32`.
* The conversion `(int) x` of a `double` is `toInt`: truncation toward zero when the
  truncated value fits in 32 bits, and `-2^31` otherwise (the result of the conversion
  instruction of the target for an out-of-range operand; undefined in C++).
* A C++ `double` is a rational number and the arithmetic on it is exact, with one
  exception: a `double` expression that is converted to `int` is discontinuous in its
  rounding error, so each multiplication and division of such an expression goes through
  the rounding function `fl : ℚ → ℚ`, a parameter of `twist_callback`.  A statement
  about every `fl` holds for the rounding of the target; `fl = id` is exact arithmetic.
  The library functions `cos` and `sin` are parameters `cos sin : ℚ → ℚ` of the
  estimator, so every statement holds for whatever the C library returns.
* A quotient of two `double`s is the quotient in `ℚ`.  The divisors `steps_per_meter`
  and `base_width` are configuration constants that the specification requires to be
  positive; what a statement says about a quotient by them is meant for a nonzero divisor.
  The sampling interval `dt` is an input of every call and can be zero: the quotients by
  `dt` go through `fdiv`, whose `none` stands for the infinity or NaN of a division by zero.
* The middleware is made explicit: the clock read `ros::Time::now()` is the argument
  `current_time` (seconds), the class members are the records `Config` (members written
  only by the constructor) and `State` (members written by `encoder_callback`), and
  what a callback publishes is the record it returns.  Throttled log lines are not
  outputs of the model.
-/

namespace roboclaw

/-! ## Data -/

/-- The values of a 32-bit `int`: `-2^31 ≤ z < 2^31`. -/
def fits32 (z : Int) : Prop :=
  -2147483648 ≤ z ∧ z < 2147483648

instance (z : Int) : Decidable (fits32 z) := by
  unfold fits32
  infer_instance

/-- The 32-bit `int` result of an operation whose mathematical value is `z`: `z` reduced
modulo `2^32` into `[-2^31, 2^31)`. -/
def wrap32 (z : Int) : Int :=
  (z + 2147483648) % 4294967296 - 2147483648

/-- Truncation of a rational toward zero. -/
def truncate (x : ℚ) : Int :=
  if 0 ≤ x then ⌊x⌋ else ⌈x⌉

/-- The conversion `(int) x` of a `double` to a 32-bit `int`: truncation toward zero, and
`-2^31` when the truncated value does not fit in 32 bits. -/
def toInt (x : ℚ) : Int :=
  if fits32 (truncate x) then truncate x else -2147483648

/-- The quotient `a / b` of two `double`s with a divisor that the inputs can make zero:
`none` stands for the non-finite result (an infinity or a NaN) of a division by zero. -/
def fdiv (a b : ℚ) : Option ℚ :=
  if b = 0 then none else some (a / b)

/-- Modelled from the spec: the members of `diffdrive_roscore` that only the constructor
writes.  The class declaration (`diffdrive_roscore.h`) is not part of the source tree; the
field types follow section 3 of the specification (lengths, speeds and variances are
real-valued, the three flags are booleans).  `linear_acceleration` is the acceleration tag
computed once by the constructor. -/
structure Config where
  tf_prefix : String
  base_width : ℚ
  steps_per_meter : ℚ
  max_linear_speed : ℚ
  max_angular_speed : ℚ
  linear_acceleration : Int
  swap_motors : Bool
  invert_motor_1 : Bool
  invert_motor_2 : Bool
  var_pos_x : ℚ
  var_pos_y : ℚ
  var_theta_z : ℚ

/-- Modelled from the spec: the members of `diffdrive_roscore` that `encoder_callback`
reads and writes (declared in `diffdrive_roscore.h`, which is not part of the source tree):
last pose, last raw encoder counts, last sample time in seconds. -/
structure State where
  last_x : ℚ
  last_y : ℚ
  last_theta : ℚ
  last_steps_1 : Int
  last_steps_2 : Int
  last_time : ℚ

/-- The message `geometry_msgs::Twist`: a linear and an angular velocity vector. -/
structure Twist where
  linear_x : ℚ
  linear_y : ℚ
  linear_z : ℚ
  angular_x : ℚ
  angular_y : ℚ
  angular_z : ℚ

/-- Modelled from the spec: the message `roboclaw::RoboclawMotorVelocity`, whose declaration
is not part of the source tree: an index, two signed wheel setpoints in steps per second and
an acceleration tag. -/
structure RoboclawMotorVelocity where
  index : Int
  mot1_vel_sps : Int
  mot2_vel_sps : Int
  acceleration : Int

/-- Modelled from the spec: the message `roboclaw::RoboclawEncoderSteps`, whose declaration
is not part of the source tree: the cumulative signed encoder counts of the two motors. -/
structure RoboclawEncoderSteps where
  mot1_enc_steps : Int
  mot2_enc_steps : Int

/-- What `twist_callback` publishes: the motor command on `motor_cmd_vel` and the filtered
command on `cmd_vel_filtered`. -/
structure TwistOutput where
  motor_vel : RoboclawMotorVelocity
  filtered_twist : Twist

/-- The fields of `nav_msgs::Odometry` that `encoder_callback` writes.  The orientation is
the quaternion `createQuaternionFromRPY(0, 0, yaw)`, recorded by its yaw argument; a twist
component is `none` when it is not finite. -/
structure Odometry where
  frame_id : String
  child_frame_id : String
  stamp : ℚ
  position_x : ℚ
  position_y : ℚ
  yaw : ℚ
  twist_linear_x : Option ℚ
  twist_linear_y : Option ℚ
  twist_angular_z : Option ℚ
  covariance_0 : ℚ
  covariance_7 : ℚ
  covariance_35 : ℚ

/-- The transform broadcast by `encoder_callback`: origin and rotation (the quaternion
`createQuaternionFromRPY(0, 0, yaw)`, recorded by its yaw argument), parent and child frame. -/
structure Transform where
  origin_x : ℚ
  origin_y : ℚ
  origin_z : ℚ
  yaw : ℚ
  frame_id : String
  child_frame_id : String

/-- What `encoder_callback` does: the odometry sample it publishes, the transform it
broadcasts, and the estimator state it leaves behind. -/
structure EncoderOutput where
  odom : Odometry
  transform : Transform
  state : State

/-! ## `twist_callback` (lines 95-161) -/

/-- The callback `diffdrive_roscore::twist_callback`, statement by statement.  `fl` is the
rounding of the `double` products and quotients that are converted to `int`. -/
def twist_callback (fl : ℚ → ℚ) (c : Config) (msg : Twist) : TwistOutput :=
  let motor_vel : RoboclawMotorVelocity :=
    { index := 0, mot1_vel_sps := 0, mot2_vel_sps := 0, acceleration := 0 }
  -- Linear acceleration
  let motor_vel := { motor_vel with acceleration := c.linear_acceleration }
  -- Linear speed
  let linear_speed_x : ℚ :=
    if msg.linear_x > c.max_linear_speed then c.max_linear_speed
    else if msg.linear_x < -c.max_linear_speed then -c.max_linear_speed
    else msg.linear_x
  let motor_vel := { motor_vel with
    mot1_vel_sps :=
      wrap32 (motor_vel.mot1_vel_sps + toInt (fl (c.steps_per_meter * linear_speed_x))) }
  let motor_vel := { motor_vel with
    mot2_vel_sps :=
      wrap32 (motor_vel.mot2_vel_sps + toInt (fl (c.steps_per_meter * linear_speed_x))) }
  let motor_vel :=
    if msg.linear_y > 0 then
      { motor_vel with
        mot2_vel_sps :=
          wrap32 (motor_vel.mot2_vel_sps + toInt (fl (c.steps_per_meter * msg.linear_y))) }
    else if msg.linear_y < 0 then
      { motor_vel with
        mot1_vel_sps :=
          wrap32 (motor_vel.mot1_vel_sps + toInt (fl (c.steps_per_meter * msg.linear_y))) }
    else motor_vel
  -- Angular
  let angular_speed_z : ℚ :=
    if msg.angular_z > c.max_angular_speed then c.max_angular_speed
    else if msg.angular_z < -c.max_angular_speed then -c.max_angular_speed
    else msg.angular_z
  let motor_vel := { motor_vel with
    mot1_vel_sps := wrap32 (motor_vel.mot1_vel_sps
      + toInt (-(fl (fl (fl (c.steps_per_meter * angular_speed_z) * c.base_width) / 2)))) }
  let motor_vel := { motor_vel with
    mot2_vel_sps := wrap32 (motor_vel.mot2_vel_sps
      + toInt (fl (fl (fl (c.steps_per_meter * angular_speed_z) * c.base_width) / 2))) }
  let motor_vel :=
    if c.invert_motor_1 then
      { motor_vel with mot1_vel_sps := wrap32 (-motor_vel.mot1_vel_sps) }
    else motor_vel
  let motor_vel :=
    if c.invert_motor_2 then
      { motor_vel with mot2_vel_sps := wrap32 (-motor_vel.mot2_vel_sps) }
    else motor_vel
  let motor_vel :=
    if c.swap_motors then
      let tmp := motor_vel.mot1_vel_sps
      let motor_vel := { motor_vel with mot1_vel_sps := motor_vel.mot2_vel_sps }
      { motor_vel with mot2_vel_sps := tmp }
    else motor_vel
  -- the corrected cmd_vel used to calculate the motor command
  let filtered_twist : Twist :=
    { linear_x := linear_speed_x, linear_y := msg.linear_y, linear_z := 0,
      angular_x := 0, angular_y := 0, angular_z := angular_speed_z }
  { motor_vel := motor_vel, filtered_twist := filtered_twist }

/-! ## `encoder_callback` (lines 163-247) -/

/-- Lines 167-183 of `encoder_callback`: the encoder deltas after inversion and swap, as
they enter the kinematics.  `wrap` is the reduction of an `int` result. -/
def encoder_deltas (wrap : Int → Int) (c : Config) (s : State)
    (msg : RoboclawEncoderSteps) : Int × Int :=
  let delta_1 : Int := wrap (msg.mot1_enc_steps - s.last_steps_1)
  let delta_2 : Int := wrap (msg.mot2_enc_steps - s.last_steps_2)
  let delta_1 := if c.invert_motor_1 then wrap (-delta_1) else delta_1
  let delta_1 := if c.invert_motor_2 then wrap (-delta_2) else delta_1
  if c.swap_motors then
    let tmp := delta_1
    let delta_1 := delta_2
    let delta_2 := tmp
    (delta_1, delta_2)
  else (delta_1, delta_2)

/-- Line 185 of `encoder_callback`: the mean linear displacement `u_w`; the two deltas are
added as `int`s before the conversion to `double`. -/
def u_w (wrap : Int → Int) (c : Config) (s : State) (msg : RoboclawEncoderSteps) : ℚ :=
  let d := encoder_deltas wrap c s msg
  (((wrap (d.1 + d.2) : Int) : ℚ) / c.steps_per_meter) / 2

/-- Line 186 of `encoder_callback`: the differential displacement `u_p`; the two deltas are
subtracted as `int`s before the conversion to `double`. -/
def u_p (wrap : Int → Int) (c : Config) (s : State) (msg : RoboclawEncoderSteps) : ℚ :=
  let d := encoder_deltas wrap c s msg
  ((wrap (d.2 - d.1) : Int) : ℚ) / c.steps_per_meter

/-- The callback `diffdrive_roscore::encoder_callback`.  `wrap` is the reduction of an
`int` result, `cos` and `sin` are the library functions, `current_time` is the clock read
of line 205 in seconds.  The time stamp of the broadcast transform, a second clock read
(line 239), is not recorded. -/
def encoder_callback (wrap : Int → Int) (cos sin : ℚ → ℚ) (c : Config) (s : State)
    (msg : RoboclawEncoderSteps) (current_time : ℚ) : EncoderOutput :=
  let last_steps_1 := msg.mot1_enc_steps
  let last_steps_2 := msg.mot2_enc_steps
  let delta_x := u_w wrap c s msg * cos s.last_theta
  let delta_y := u_w wrap c s msg * sin s.last_theta
  let delta_theta := u_p wrap c s msg / c.base_width
  let cur_x := s.last_x + delta_x
  let cur_y := s.last_y + delta_y
  let cur_theta := s.last_theta + delta_theta
  let odom_frame := Config.tf_prefix c ++ "/odom"
  let base_frame := Config.tf_prefix c ++ "/base_footprint"
  let dt := current_time - s.last_time
  let odom : Odometry :=
    { frame_id := odom_frame
      child_frame_id := base_frame
      stamp := current_time
      position_x := cur_x
      position_y := cur_y
      twist_linear_x := fdiv (cur_x - s.last_x) dt
      twist_linear_y := fdiv (cur_y - s.last_y) dt
      twist_angular_z := fdiv (cur_theta - s.last_theta) dt
      yaw := cur_theta
      covariance_0 := c.var_pos_x
      covariance_7 := c.var_pos_y
      covariance_35 := c.var_theta_z }
  let transform : Transform :=
    { origin_x := s.last_x, origin_y := s.last_y, origin_z := 0
      yaw := cur_theta
      frame_id := odom_frame, child_frame_id := base_frame }
  { odom := odom
    transform := transform
    state :=
      { last_x := cur_x, last_y := cur_y, last_theta := cur_theta
        last_steps_1 := last_steps_1, last_steps_2 := last_steps_2
        last_time := current_time } }

/-! ## Sequences of encoder updates -/

/-- The dispatcher delivering encoder samples in order: `encoder_callback` is called once per
sample, each call starting from the state the previous call left.  A sample is the message
together with the clock read of its call; the result lists what each call published. -/
def encoder_outputs (wrap : Int → Int) (cos sin : ℚ → ℚ) (c : Config) :
    State → List (RoboclawEncoderSteps × ℚ) → List EncoderOutput
  | _, [] => []
  | s, sample :: rest =>
    (encoder_callback wrap cos sin c s sample.1 sample.2) ::
      encoder_outputs wrap cos sin c
        (encoder_callback wrap cos sin c s sample.1 sample.2).state rest

/-- The estimator state left behind by a sequence of encoder samples delivered in order. -/
def encoder_state_after (wrap : Int → Int) (cos sin : ℚ → ℚ) (c : Config) :
    State → List (RoboclawEncoderSteps × ℚ) → State
  | s, [] => s
  | s, sample :: rest =>
    encoder_state_after wrap cos sin c
      (encoder_callback wrap cos sin c s sample.1 sample.2).state rest

/-- The pose `(x, y, heading)` carried by the odometry sample of one update. -/
def reported_pose (out : EncoderOutput) : ℚ × ℚ × ℚ :=
  (out.odom.position_x, out.odom.position_y, out.odom.yaw)

/-! ## Specification-side and example definitions -/

/-- Clamp from the specification's words: `x` restricted to the range `[lo, hi]`. -/
def clamp (x lo hi : ℚ) : ℚ := max lo (min x hi)

/-- The configuration of the specification's example scenario. -/
def exampleConfig : Config :=
  { tf_prefix := "", base_width := 1 / 2, steps_per_meter := 1000,
    max_linear_speed := 1000, max_angular_speed := 1000, linear_acceleration := 1000000,
    swap_motors := false, invert_motor_1 := false, invert_motor_2 := false,
    var_pos_x := 1 / 100, var_pos_y := 1 / 100, var_theta_z := 1 / 100 }

/-- A configuration with one step per meter and unit base width. -/
def unitConfig : Config :=
  { tf_prefix := "", base_width := 1, steps_per_meter := 1,
    max_linear_speed := 1000, max_angular_speed := 1000, linear_acceleration := 1000,
    swap_motors := false, invert_motor_1 := false, invert_motor_2 := false,
    var_pos_x := 1 / 100, var_pos_y := 1 / 100, var_theta_z := 1 / 100 }

/-- The estimator state at the origin with zero counts and zero sample time. -/
def originState : State :=
  { last_x := 0, last_y := 0, last_theta := 0, last_steps_1 := 0, last_steps_2 := 0,
    last_time := 0 }

/-- The configuration `unitConfig` with `invert_motor_2` set. -/
def invert2Config : Config := { unitConfig with invert_motor_2 := true }

/-- The configuration `unitConfig` with `swap_motors` set. -/
def swapConfig : Config := { unitConfig with swap_motors := true }

/-- The configuration `unitConfig` with `2^30` steps per meter. -/
def fineStepsConfig : Config := { unitConfig with steps_per_meter := 1073741824 }

/-! ## Closed forms of the wheel values -/

/-- The clipping written out twice in `twist_callback` (lines 108-115 and 128-135): a value
above `m` becomes `m`, a value below `-m` becomes `-m`. -/
def clip (v m : ℚ) : ℚ :=
  if v > m then m else if v < -m then -m else v

/-- The base contribution of lines 117-118, converted to `int`. -/
def base_steps (fl : ℚ → ℚ) (c : Config) (msg : Twist) : Int :=
  toInt (fl (c.steps_per_meter * clip msg.linear_x c.max_linear_speed))

/-- The lateral contribution of lines 121 and 123, converted to `int`. -/
def lateral_steps (fl : ℚ → ℚ) (c : Config) (msg : Twist) : Int :=
  toInt (fl (c.steps_per_meter * msg.linear_y))

/-- The `double` value of the angular contribution of lines 137-138, before the sign and
the conversion to `int`. -/
def angular_value (fl : ℚ → ℚ) (c : Config) (msg : Twist) : ℚ :=
  fl (fl (fl (c.steps_per_meter * clip msg.angular_z c.max_angular_speed) * c.base_width) / 2)

/-- Wheel 1 after the base, lateral and angular contributions (lines 117-137), before
inversion and swap. -/
def wheel_1 (fl : ℚ → ℚ) (c : Config) (msg : Twist) : Int :=
  wrap32
    ((if msg.linear_y < 0 then wrap32 (base_steps fl c msg + lateral_steps fl c msg)
      else base_steps fl c msg)
      + toInt (-(angular_value fl c msg)))

/-- Wheel 2 after the base, lateral and angular contributions (lines 118-138), before
inversion and swap. -/
def wheel_2 (fl : ℚ → ℚ) (c : Config) (msg : Twist) : Int :=
  wrap32
    ((if msg.linear_y > 0 then wrap32 (base_steps fl c msg + lateral_steps fl c msg)
      else base_steps fl c msg)
      + toInt (angular_value fl c msg))

/-! ## Auxiliary lemmas: 32-bit integers -/

/-- A value in the 32-bit range is not changed by the reduction. -/
theorem wrap32_of_fits {z : Int} (h : fits32 z) : wrap32 z = z := by
  unfold fits32 at h
  unfold wrap32
  omega

/-- The reduction lands in the 32-bit range. -/
theorem fits32_wrap32 (z : Int) : fits32 (wrap32 z) := by
  unfold fits32 wrap32
  omega

/-- The reduction never increases the magnitude. -/
theorem abs_wrap32_le (z : Int) : |wrap32 z| ≤ |z| := by
  unfold wrap32
  rcases abs_cases z with ⟨h, _⟩ | ⟨h, _⟩ <;>
  rcases abs_cases ((z + 2147483648) % 4294967296 - 2147483648) with ⟨h', _⟩ | ⟨h', _⟩ <;>
  rw [h, h'] <;> omega

/-- The reduction never increases the magnitude, as rationals. -/
theorem abs_wrap32_cast_le (z : Int) : |((wrap32 z : Int) : ℚ)| ≤ |(z : ℚ)| := by
  exact_mod_cast abs_wrap32_le z

/-- Adding a value to its 32-bit negation gives zero, also when the negation wraps. -/
theorem wrap32_neg_add_self (a : Int) : wrap32 (wrap32 (-a) + a) = 0 := by
  unfold wrap32
  omega

/-- Adding the 32-bit negation of a value to it gives zero, also when the negation wraps. -/
theorem wrap32_self_add_neg (a : Int) : wrap32 (a + wrap32 (-a)) = 0 := by
  unfold wrap32
  omega

/-- An integer below `2^31` in magnitude is a 32-bit value. -/
theorem fits32_of_abs_lt {z : Int} (h : |z| < 2147483648) : fits32 z := by
  unfold fits32
  have := abs_lt.mp h
  omega

/-! ## Auxiliary lemmas: conversion to `int` -/

/-- The conversion to `int` yields a 32-bit value. -/
theorem fits32_toInt (x : ℚ) : fits32 (toInt x) := by
  unfold toInt
  split
  · assumption
  · unfold fits32
    omega

/-- A converted value is not changed by the reduction. -/
theorem wrap32_toInt (x : ℚ) : wrap32 (toInt x) = toInt x :=
  wrap32_of_fits (fits32_toInt x)

/-- Where the truncated value fits in 32 bits the conversion is the truncation. -/
theorem toInt_of_fits {x : ℚ} (h : fits32 (truncate x)) : toInt x = truncate x := by
  unfold toInt
  rw [if_pos h]

/-- Truncation of an integer value. -/
theorem truncate_intCast (z : Int) : truncate (z : ℚ) = z := by
  unfold truncate
  split <;> simp

/-- Truncation toward zero is odd. -/
theorem truncate_neg (x : ℚ) : truncate (-x) = -truncate x := by
  unfold truncate
  rcases lt_trichotomy x 0 with h | h | h
  · rw [if_pos (by linarith), if_neg (by linarith)]
    simp [Int.floor_neg]
  · subst h; simp
  · rw [if_neg (by linarith), if_pos (by linarith)]
    simp [Int.ceil_neg]

/-- Truncation toward zero never increases the magnitude. -/
theorem abs_truncate_le (x : ℚ) : |((truncate x : Int) : ℚ)| ≤ |x| := by
  unfold truncate
  split
  · rename_i h
    have h1 : (0 : ℚ) ≤ ((⌊x⌋ : Int) : ℚ) := by exact_mod_cast Int.floor_nonneg.mpr h
    rw [abs_of_nonneg h, abs_of_nonneg h1]
    exact Int.floor_le x
  · rename_i h
    push_neg at h
    have h1 : ((⌈x⌉ : Int) : ℚ) ≤ 0 := by
      exact_mod_cast Int.ceil_le.mpr (by simpa using h.le)
    rw [abs_of_neg h, abs_of_nonpos h1]
    linarith [Int.le_ceil x]

/-- Evaluation of `truncate` at a non-negative value lying in `[z, z + 1)`. -/
theorem truncate_of_nonneg {x : ℚ} (z : Int) (h0 : 0 ≤ x) (h1 : (z : ℚ) ≤ x)
    (h2 : x < z + 1) : truncate x = z := by
  unfold truncate
  rw [if_pos h0]
  exact Int.floor_eq_iff.mpr ⟨h1, h2⟩

/-- An integer value in the 32-bit range converts to itself. -/
theorem toInt_intCast {z : Int} (h : fits32 z) : toInt (z : ℚ) = z := by
  rw [toInt_of_fits (by rw [truncate_intCast]; exact h), truncate_intCast]

/-- Zero converts to zero. -/
theorem toInt_zero : toInt 0 = 0 := by
  simpa using toInt_intCast (z := 0) (by decide)

/-- One half converts to zero. -/
theorem toInt_half : toInt (1 / 2) = 0 := by
  have h : truncate (1 / 2) = 0 :=
    truncate_of_nonneg 0 (by norm_num) (by norm_num) (by norm_num)
  rw [toInt_of_fits (by rw [h]; decide), h]

/-- The conversion to `int` never increases the magnitude: an out-of-range operand has
magnitude at least `2^31`. -/
theorem abs_toInt_le (x : ℚ) : |((toInt x : Int) : ℚ)| ≤ |x| := by
  unfold toInt
  split
  · exact abs_truncate_le x
  · rename_i h
    have ht := abs_truncate_le x
    have hbig : (2147483648 : ℚ) ≤ |((truncate x : Int) : ℚ)| := by
      have : (2147483648 : Int) ≤ |truncate x| := by
        unfold fits32 at h
        rcases abs_cases (truncate x) with ⟨e, _⟩ | ⟨e, _⟩ <;> rw [e] <;> omega
      exact_mod_cast this
    have e : |(((-2147483648 : Int)) : ℚ)| = 2147483648 := by norm_num
    rw [e]
    exact hbig.trans ht

/-! ## Auxiliary lemmas: closed forms of `twist_callback` -/

/-- The filtered twist that `twist_callback` publishes, in closed form. -/
theorem twist_callback_filtered (fl : ℚ → ℚ) (c : Config) (msg : Twist) :
    (twist_callback fl c msg).filtered_twist =
      { linear_x := clip msg.linear_x c.max_linear_speed
        linear_y := msg.linear_y
        linear_z := 0
        angular_x := 0
        angular_y := 0
        angular_z := clip msg.angular_z c.max_angular_speed } := rfl

/-- The motor command that `twist_callback` publishes, in closed form: the wheel values,
negated per flag as 32-bit `int`s, then swapped. -/
theorem twist_callback_motor_vel (fl : ℚ → ℚ) (c : Config) (msg : Twist) :
    (twist_callback fl c msg).motor_vel =
      { index := 0
        mot1_vel_sps :=
          if c.swap_motors then
            (if c.invert_motor_2 then wrap32 (-wheel_2 fl c msg) else wheel_2 fl c msg)
          else (if c.invert_motor_1 then wrap32 (-wheel_1 fl c msg) else wheel_1 fl c msg)
        mot2_vel_sps :=
          if c.swap_motors then
            (if c.invert_motor_1 then wrap32 (-wheel_1 fl c msg) else wheel_1 fl c msg)
          else (if c.invert_motor_2 then wrap32 (-wheel_2 fl c msg) else wheel_2 fl c msg)
        acceleration := c.linear_acceleration } := by
  rcases lt_trichotomy msg.linear_y 0 with hy | hy | hy
  · have hy2 : ¬ msg.linear_y > 0 := not_lt.mpr hy.le
    cases h1 : c.invert_motor_1 <;> cases h2 : c.invert_motor_2 <;>
      cases h3 : c.swap_motors <;>
      simp [twist_callback, wheel_1, wheel_2, base_steps, lateral_steps, angular_value, clip,
        wrap32_toInt, h1, h2, h3, hy, hy2]
  · cases h1 : c.invert_motor_1 <;> cases h2 : c.invert_motor_2 <;>
      cases h3 : c.swap_motors <;>
      simp [twist_callback, wheel_1, wheel_2, base_steps, lateral_steps, angular_value, clip,
        wrap32_toInt, h1, h2, h3, hy]
  · have hy2 : ¬ msg.linear_y < 0 := not_lt.mpr hy.le
    cases h1 : c.invert_motor_1 <;> cases h2 : c.invert_motor_2 <;>
      cases h3 : c.swap_motors <;>
      simp [twist_callback, wheel_1, wheel_2, base_steps, lateral_steps, angular_value, clip,
        wrap32_toInt, h1, h2, h3, hy, hy2]

/-- A clipped value lies within the bound. -/
theorem abs_clip_le (v m : ℚ) (hm : 0 ≤ m) : |clip v m| ≤ m := by
  unfold clip
  by_cases h1 : v > m
  · rw [if_pos h1, abs_of_nonneg hm]
  · rw [if_neg h1]
    by_cases h2 : v < -m
    · rw [if_pos h2, abs_neg, abs_of_nonneg hm]
    · rw [if_neg h2]
      exact abs_le.mpr ⟨not_lt.mp h2, not_lt.mp h1⟩

/-- A value within the bound is not changed by clipping. -/
theorem clip_of_abs_le (v m : ℚ) (h : |v| ≤ m) : clip v m = v := by
  have hv := abs_le.mp h
  unfold clip
  rw [if_neg (not_lt.mpr hv.2), if_neg (not_lt.mpr hv.1)]

/-- Clipping twice is clipping once. -/
theorem clip_clip (v m : ℚ) (hm : 0 ≤ m) : clip (clip v m) m = clip v m :=
  clip_of_abs_le _ _ (abs_clip_le v m hm)

/-- The clipping of the code is the clamp of the specification on a symmetric range with a
non-negative bound. -/
theorem clip_eq_clamp (v m : ℚ) (hm : 0 ≤ m) : clip v m = clamp v (-m) m := by
  unfold clip clamp
  by_cases h1 : v > m
  · rw [if_pos h1, min_eq_right h1.le, max_eq_right (by linarith)]
  · rw [if_neg h1, min_eq_left (not_lt.mp h1)]
    by_cases h2 : v < -m
    · rw [if_pos h2, max_eq_left h2.le]
    · rw [if_neg h2, max_eq_right (not_lt.mp h2)]

/-- The three shares of a wheel value in exact `double` arithmetic: the base steps are
within `steps_per_meter*max_linear_speed`, the lateral steps within `steps_per_meter*|vy|`
and the angular steps within `steps_per_meter*max_angular_speed*base_width/2`. -/
theorem abs_shares_le (c : Config) (msg : Twist)
    (hspm : 0 < c.steps_per_meter) (hbw : 0 < c.base_width)
    (hlin : 0 ≤ c.max_linear_speed) (hang : 0 ≤ c.max_angular_speed) :
    |((base_steps id c msg : Int) : ℚ)| ≤ c.steps_per_meter * c.max_linear_speed ∧
    |((lateral_steps id c msg : Int) : ℚ)| ≤ c.steps_per_meter * |msg.linear_y| ∧
    |((toInt (angular_value id c msg) : Int) : ℚ)|
      ≤ c.steps_per_meter * c.max_angular_speed * c.base_width / 2 ∧
    |((toInt (-(angular_value id c msg)) : Int) : ℚ)|
      ≤ c.steps_per_meter * c.max_angular_speed * c.base_width / 2 := by
  have hx := abs_clip_le msg.linear_x c.max_linear_speed hlin
  have hz := abs_clip_le msg.angular_z c.max_angular_speed hang
  have ha : |angular_value id c msg|
      ≤ c.steps_per_meter * c.max_angular_speed * c.base_width / 2 := by
    simp only [angular_value, id]
    rw [abs_div, abs_mul, abs_mul, abs_of_pos hspm, abs_of_pos hbw,
      abs_of_pos (by norm_num : (0 : ℚ) < 2)]
    have := mul_le_mul_of_nonneg_left hz hspm.le
    have := mul_le_mul_of_nonneg_right this hbw.le
    linarith
  refine ⟨?_, ?_, ?_, ?_⟩
  · refine (abs_toInt_le _).trans ?_
    simp only [id]
    rw [abs_mul, abs_of_pos hspm]
    exact mul_le_mul_of_nonneg_left hx hspm.le
  · refine (abs_toInt_le _).trans ?_
    simp only [id]
    rw [abs_mul, abs_of_pos hspm]
  · exact (abs_toInt_le _).trans ha
  · refine (abs_toInt_le _).trans ?_
    rw [abs_neg]
    exact ha

/-- The bound on wheel 1 before inversion and swap, in exact `double` arithmetic: linear,
lateral and angular share.  No 32-bit operation increases a magnitude. -/
theorem abs_wheel_1_le (c : Config) (msg : Twist)
    (hspm : 0 < c.steps_per_meter) (hbw : 0 < c.base_width)
    (hlin : 0 ≤ c.max_linear_speed) (hang : 0 ≤ c.max_angular_speed) :
    |((wheel_1 id c msg : Int) : ℚ)| ≤
      c.steps_per_meter * c.max_linear_speed + c.steps_per_meter * |msg.linear_y|
        + c.steps_per_meter * c.max_angular_speed * c.base_width / 2 := by
  obtain ⟨t1, t2, -, t3⟩ := abs_shares_le c msg hspm hbw hlin hang
  have hlat : 0 ≤ c.steps_per_meter * |msg.linear_y| :=
    mul_nonneg hspm.le (abs_nonneg _)
  unfold wheel_1
  refine (abs_wrap32_cast_le _).trans ?_
  push_cast
  refine (abs_add _ _).trans (add_le_add ?_ t3)
  split
  · refine (abs_wrap32_cast_le _).trans ?_
    push_cast
    exact (abs_add _ _).trans (add_le_add t1 t2)
  · linarith

/-- The same bound for wheel 2. -/
theorem abs_wheel_2_le (c : Config) (msg : Twist)
    (hspm : 0 < c.steps_per_meter) (hbw : 0 < c.base_width)
    (hlin : 0 ≤ c.max_linear_speed) (hang : 0 ≤ c.max_angular_speed) :
    |((wheel_2 id c msg : Int) : ℚ)| ≤
      c.steps_per_meter * c.max_linear_speed + c.steps_per_meter * |msg.linear_y|
        + c.steps_per_meter * c.max_angular_speed * c.base_width / 2 := by
  obtain ⟨t1, t2, t3, -⟩ := abs_shares_le c msg hspm hbw hlin hang
  have hlat : 0 ≤ c.steps_per_meter * |msg.linear_y| :=
    mul_nonneg hspm.le (abs_nonneg _)
  unfold wheel_2
  refine (abs_wrap32_cast_le _).trans ?_
  push_cast
  refine (abs_add _ _).trans (add_le_add ?_ t3)
  split
  · refine (abs_wrap32_cast_le _).trans ?_
    push_cast
    exact (abs_add _ _).trans (add_le_add t1 t2)
  · linarith

/-- A 32-bit negation keeps a magnitude bound. -/
theorem abs_neg32_le {z : Int} {b : ℚ} (h : |(z : ℚ)| ≤ b) :
    |((wrap32 (-z) : Int) : ℚ)| ≤ b := by
  refine (abs_wrap32_cast_le _).trans ?_
  push_cast
  rwa [abs_neg]

/-- Two integers whose magnitudes add up to less than `2^31`: they, their sum and their
differences are 32-bit values. -/
theorem fits32_of_abs_add_lt {a b : Int} (h : |a| + |b| < 2147483648) :
    fits32 a ∧ fits32 b ∧ fits32 (a + b) ∧ fits32 (b - a) ∧ fits32 (a - b) := by
  unfold fits32
  rcases abs_cases a with ⟨ha, _⟩ | ⟨ha, _⟩ <;> rcases abs_cases b with ⟨hb, _⟩ | ⟨hb, _⟩ <;>
    rw [ha, hb] at h <;> omega

/-! ## C1: pose update of `encoder_callback` -/

/-- C1, counterexample. One step per meter, unit base width, no inversion, no swap, from
the origin, sample `(2^30, 2^30)`, `cos 0 = 1`: line 185 adds the two deltas as 32-bit
`int`s, `2^30 + 2^30` wraps to `-2^31`, so `u_w = -2^30` and the reported `x` is `-2^30`,
not `last_x + (d1 + d2)/steps_per_meter/2 * cos(last_theta) = 2^30`. -/
theorem pose_update_overflow :
    (unitConfig.steps_per_meter ≠ 0 ∧ unitConfig.base_width ≠ 0 ∧
      unitConfig.invert_motor_1 = false ∧ unitConfig.invert_motor_2 = false ∧
      fits32 1073741824) ∧
    (encoder_callback wrap32 (fun _ => 1) (fun _ => 0) unitConfig originState
      ⟨1073741824, 1073741824⟩ 1).odom.position_x = -1073741824 ∧
    (encoder_callback wrap32 (fun _ => 1) (fun _ => 0) unitConfig originState
      ⟨1073741824, 1073741824⟩ 1).odom.position_x ≠
      originState.last_x
        + ((((1073741824 - originState.last_steps_1 : Int) : ℚ)
            + ((1073741824 - originState.last_steps_2 : Int) : ℚ))
          / unitConfig.steps_per_meter / 2) * 1 := by
  have h : (encoder_callback wrap32 (fun _ => 1) (fun _ => 0) unitConfig originState
      ⟨1073741824, 1073741824⟩ 1).odom.position_x = -1073741824 := by
    norm_num [encoder_callback, u_w, encoder_deltas, unitConfig, originState, wrap32]
  refine ⟨⟨?_, ?_, rfl, rfl, by decide⟩, h, ?_⟩
  · norm_num [unitConfig]
  · norm_num [unitConfig]
  · rw [h]
    norm_num [unitConfig, originState]

/-- C1, amended. Pose update of `encoder_callback`: with `steps_per_meter ≠ 0`,
`base_width ≠ 0` and both inversion flags false, for every state and encoder sample whose
raw deltas `steps_i - last_steps_i` satisfy `|delta_1| + |delta_2| < 2^31` (no 32-bit
overflow in the deltas, their sum and their difference), the reported pose is
`(last_x + u_w * cos last_theta, last_y + u_w * sin last_theta, last_theta + u_p / base_width)`
with `u_w = (d1 + d2) / steps_per_meter / 2`, `u_p = (d2 - d1) / steps_per_meter`, where
`(d1, d2)` are the raw deltas, exchanged when `swap_motors` is set.  The displacement is
projected with the previous heading `last_theta`. -/
theorem pose_update (cos sin : ℚ → ℚ) (c : Config) (s : State)
    (msg : RoboclawEncoderSteps) (current_time : ℚ)
    (_hspm : c.steps_per_meter ≠ 0) (_hbw : c.base_width ≠ 0)
    (hinv1 : c.invert_motor_1 = false) (hinv2 : c.invert_motor_2 = false)
    (hrange : |msg.mot1_enc_steps - s.last_steps_1| + |msg.mot2_enc_steps - s.last_steps_2|
      < 2147483648) :
    let raw_1 : ℚ := ((msg.mot1_enc_steps - s.last_steps_1 : Int) : ℚ)
    let raw_2 : ℚ := ((msg.mot2_enc_steps - s.last_steps_2 : Int) : ℚ)
    let d1 : ℚ := if c.swap_motors then raw_2 else raw_1
    let d2 : ℚ := if c.swap_motors then raw_1 else raw_2
    let uw : ℚ := (d1 + d2) / c.steps_per_meter / 2
    let up : ℚ := (d2 - d1) / c.steps_per_meter
    let out := encoder_callback wrap32 cos sin c s msg current_time
    out.odom.position_x = s.last_x + uw * cos s.last_theta ∧
    out.odom.position_y = s.last_y + uw * sin s.last_theta ∧
    out.odom.yaw = s.last_theta + up / c.base_width := by
  intro raw_1 raw_2 d1 d2 uw up out
  obtain ⟨f1, f2, f3, f4, f5⟩ := fits32_of_abs_add_lt hrange
  have e1 := wrap32_of_fits f1
  have e2 := wrap32_of_fits f2
  have e3 := wrap32_of_fits f3
  have e4 := wrap32_of_fits f4
  have e5 := wrap32_of_fits f5
  have e3' : wrap32 (msg.mot2_enc_steps - s.last_steps_2
      + (msg.mot1_enc_steps - s.last_steps_1))
      = msg.mot2_enc_steps - s.last_steps_2 + (msg.mot1_enc_steps - s.last_steps_1) := by
    rw [add_comm, e3, add_comm]
  cases hs : c.swap_motors
  · simp only [out, uw, up, d1, d2, raw_1, raw_2, encoder_callback, u_w, u_p, encoder_deltas,
      hinv1, hinv2, hs, e1, e2]
    simp [e3, e4]
  · simp only [out, uw, up, d1, d2, raw_1, raw_2, encoder_callback, u_w, u_p, encoder_deltas,
      hinv1, hinv2, hs, e1, e2]
    simp [e3', e5]

/-- Witness of C1 (amended): the example configuration (1000 steps per meter, base width
0.5), from the origin, sample `(750, 1250)`: mean displacement 1, differential displacement
0.5, so the pose becomes `(1, 0, 1)` when `cos 0 = 1` and `sin 0 = 0`. -/
theorem pose_update_witness :
    (exampleConfig.steps_per_meter ≠ 0 ∧ exampleConfig.base_width ≠ 0 ∧
      exampleConfig.invert_motor_1 = false ∧ exampleConfig.invert_motor_2 = false ∧
      |(750 : Int) - originState.last_steps_1| + |(1250 : Int) - originState.last_steps_2|
        < 2147483648) ∧
    (encoder_callback wrap32 (fun _ => 1) (fun _ => 0) exampleConfig originState
        ⟨750, 1250⟩ 1).odom.position_x = 1 ∧
    (encoder_callback wrap32 (fun _ => 1) (fun _ => 0) exampleConfig originState
        ⟨750, 1250⟩ 1).odom.position_y = 0 ∧
    (encoder_callback wrap32 (fun _ => 1) (fun _ => 0) exampleConfig originState
        ⟨750, 1250⟩ 1).odom.yaw = 1 := by
  have hs : exampleConfig.steps_per_meter ≠ 0 := by norm_num [exampleConfig]
  have hb : exampleConfig.base_width ≠ 0 := by norm_num [exampleConfig]
  have hr : |(750 : Int) - originState.last_steps_1| + |(1250 : Int) - originState.last_steps_2|
      < 2147483648 := by
    simp only [originState]
    decide
  have h := pose_update (fun _ => 1) (fun _ => 0) exampleConfig originState ⟨750, 1250⟩ 1
    hs hb rfl rfl hr
  refine ⟨⟨hs, hb, rfl, rfl, hr⟩, ?_⟩
  simp only [] at h
  obtain ⟨hx, hy, ht⟩ := h
  rw [hx, hy, ht]
  norm_num [exampleConfig, originState]

/-! ## C2: wheel setpoints and truncation -/

/-- C2, counterexample. One step per meter, unit base width, no inversion, no swap, command
`(1/2, 0, 1)` within the bounds (the products `1/2` are exact in `double` arithmetic): the
analytic wheel 2 value is `1/2 + 1/2 = 1`, whose truncation is 1, but the published
setpoint is `(int)(1/2) + (int)(1/2) = 0`. -/
theorem setpoint_not_truncated_sum :
    (unitConfig.invert_motor_1 = false ∧ unitConfig.invert_motor_2 = false ∧
      unitConfig.swap_motors = false ∧ |(1 / 2 : ℚ)| ≤ unitConfig.max_linear_speed ∧
      |(1 : ℚ)| ≤ unitConfig.max_angular_speed) ∧
    (twist_callback id unitConfig ⟨1 / 2, 0, 0, 0, 0, 1⟩).motor_vel.mot2_vel_sps = 0 ∧
    truncate (unitConfig.steps_per_meter * (1 / 2)
      + unitConfig.steps_per_meter * 1 * unitConfig.base_width / 2) = 1 ∧
    (twist_callback id unitConfig ⟨1 / 2, 0, 0, 0, 0, 1⟩).motor_vel.mot2_vel_sps ≠
      truncate (unitConfig.steps_per_meter * (1 / 2)
        + unitConfig.steps_per_meter * 1 * unitConfig.base_width / 2) := by
  have hpub : (twist_callback id unitConfig ⟨1 / 2, 0, 0, 0, 0, 1⟩).motor_vel.mot2_vel_sps
      = 0 := by
    rw [twist_callback_motor_vel]
    have w0 : wrap32 (0 + 0) = 0 := by decide
    norm_num [wheel_2, base_steps, lateral_steps, angular_value, clip, unitConfig]
    rw [toInt_half, w0]
  have hana : truncate (unitConfig.steps_per_meter * (1 / 2)
      + unitConfig.steps_per_meter * 1 * unitConfig.base_width / 2) = 1 := by
    have : unitConfig.steps_per_meter * (1 / 2)
      + unitConfig.steps_per_meter * 1 * unitConfig.base_width / 2 = ((1 : Int) : ℚ) := by
      norm_num [unitConfig]
    rw [this, truncate_intCast]
  refine ⟨⟨rfl, rfl, rfl, ?_, ?_⟩, hpub, hana, ?_⟩
  · exact abs_le.mpr ⟨by norm_num [unitConfig], by norm_num [unitConfig]⟩
  · exact abs_le.mpr ⟨by norm_num [unitConfig], by norm_num [unitConfig]⟩
  · rw [hpub, hana]; decide

/-- C2, amended. With no inversion and no swap, for every command `(vx, 0, wz)` with
`|vx| ≤ max_linear_speed` and `|wz| ≤ max_angular_speed`, and whatever the rounding `fl` of
the `double` operations, each contribution is converted to a 32-bit `int` on its own and
the two `int`s are added: wheel 1 is
`(int)(steps_per_meter*vx) + (int)(-(steps_per_meter*wz*base_width/2))` and wheel 2 is
`(int)(steps_per_meter*vx) + (int)(steps_per_meter*wz*base_width/2)`, the products being
the `double` products and the sum the 32-bit sum. -/
theorem setpoints_sum_of_truncations (fl : ℚ → ℚ) (c : Config) (msg : Twist)
    (hinv1 : c.invert_motor_1 = false) (hinv2 : c.invert_motor_2 = false)
    (hswap : c.swap_motors = false) (hvy : msg.linear_y = 0)
    (hvx : |msg.linear_x| ≤ c.max_linear_speed)
    (hwz : |msg.angular_z| ≤ c.max_angular_speed) :
    (twist_callback fl c msg).motor_vel.mot1_vel_sps =
      wrap32 (toInt (fl (c.steps_per_meter * msg.linear_x))
        + toInt (-(fl (fl (fl (c.steps_per_meter * msg.angular_z) * c.base_width) / 2)))) ∧
    (twist_callback fl c msg).motor_vel.mot2_vel_sps =
      wrap32 (toInt (fl (c.steps_per_meter * msg.linear_x))
        + toInt (fl (fl (fl (c.steps_per_meter * msg.angular_z) * c.base_width) / 2))) := by
  have cx := clip_of_abs_le _ _ hvx
  have cz := clip_of_abs_le _ _ hwz
  rw [twist_callback_motor_vel]
  simp [wheel_1, wheel_2, base_steps, angular_value, hinv1, hinv2, hswap, hvy, cx, cz]

/-- Witness of C2 (amended): the command `(1/2, 0, 1)` of the counterexample. -/
theorem setpoints_sum_of_truncations_witness :
    (unitConfig.invert_motor_1 = false ∧ unitConfig.invert_motor_2 = false ∧
      unitConfig.swap_motors = false ∧ |(1 / 2 : ℚ)| ≤ unitConfig.max_linear_speed ∧
      |(1 : ℚ)| ≤ unitConfig.max_angular_speed) ∧
    (twist_callback id unitConfig ⟨1 / 2, 0, 0, 0, 0, 1⟩).motor_vel.mot1_vel_sps =
      wrap32 (toInt (id (unitConfig.steps_per_meter * (1 / 2)))
        + toInt (-(id (id (id (unitConfig.steps_per_meter * 1) * unitConfig.base_width)
            / 2)))) ∧
    (twist_callback id unitConfig ⟨1 / 2, 0, 0, 0, 0, 1⟩).motor_vel.mot2_vel_sps =
      wrap32 (toInt (id (unitConfig.steps_per_meter * (1 / 2)))
        + toInt (id (id (id (unitConfig.steps_per_meter * 1) * unitConfig.base_width)
            / 2))) := by
  have h1 : |(1 / 2 : ℚ)| ≤ unitConfig.max_linear_speed :=
    abs_le.mpr ⟨by norm_num [unitConfig], by norm_num [unitConfig]⟩
  have h2 : |(1 : ℚ)| ≤ unitConfig.max_angular_speed :=
    abs_le.mpr ⟨by norm_num [unitConfig], by norm_num [unitConfig]⟩
  exact ⟨⟨rfl, rfl, rfl, h1, h2⟩,
    setpoints_sum_of_truncations id unitConfig ⟨1 / 2, 0, 0, 0, 0, 1⟩ rfl rfl rfl rfl h1 h2⟩

/-! ## C3: the filtered command echo -/

/-- C3. Filtered command echo of `twist_callback`: with `max_linear_speed ≥ 0` and
`max_angular_speed ≥ 0`, for every command `(vx, vy, wz)` the published filtered twist is
`(clamp vx (-max_linear_speed) max_linear_speed, vy, clamp wz (-max_angular_speed)
max_angular_speed)` (its other components are zero); a value inside its bounds is echoed
unchanged and `vy` is never clamped. -/
theorem filtered_echo (fl : ℚ → ℚ) (c : Config) (msg : Twist)
    (hlin : 0 ≤ c.max_linear_speed) (hang : 0 ≤ c.max_angular_speed) :
    (twist_callback fl c msg).filtered_twist =
      { linear_x := clamp msg.linear_x (-c.max_linear_speed) c.max_linear_speed
        linear_y := msg.linear_y
        linear_z := 0
        angular_x := 0
        angular_y := 0
        angular_z := clamp msg.angular_z (-c.max_angular_speed) c.max_angular_speed } ∧
    (|msg.linear_x| ≤ c.max_linear_speed →
      (twist_callback fl c msg).filtered_twist.linear_x = msg.linear_x) ∧
    (|msg.angular_z| ≤ c.max_angular_speed →
      (twist_callback fl c msg).filtered_twist.angular_z = msg.angular_z) := by
  refine ⟨?_, ?_, ?_⟩
  · rw [twist_callback_filtered, clip_eq_clamp _ _ hlin, clip_eq_clamp _ _ hang]
  · intro h
    rw [twist_callback_filtered]
    exact clip_of_abs_le _ _ h
  · intro h
    rw [twist_callback_filtered]
    exact clip_of_abs_le _ _ h

/-- Witness of C3: bounds 1000, command `(2000, 7, -1)`: the echo is `(1000, 7, -1)`. -/
theorem filtered_echo_witness :
    (0 ≤ unitConfig.max_linear_speed ∧ 0 ≤ unitConfig.max_angular_speed) ∧
    (twist_callback id unitConfig ⟨2000, 7, 0, 0, 0, -1⟩).filtered_twist =
      ⟨1000, 7, 0, 0, 0, -1⟩ := by
  have hlin : 0 ≤ unitConfig.max_linear_speed := by norm_num [unitConfig]
  have hang : 0 ≤ unitConfig.max_angular_speed := by norm_num [unitConfig]
  refine ⟨⟨hlin, hang⟩, ?_⟩
  rw [(filtered_echo id unitConfig ⟨2000, 7, 0, 0, 0, -1⟩ hlin hang).1]
  have h1 : clamp 2000 (-1000) 1000 = 1000 := by
    unfold clamp; rw [min_eq_right (by norm_num), max_eq_right (by norm_num)]
  have h2 : clamp (-1) (-1000) 1000 = -1 := by
    unfold clamp; rw [min_eq_left (by norm_num), max_eq_right (by norm_num)]
  simp only [unitConfig, h1, h2]

/-! ## C4: motor-2 inversion in `encoder_callback` -/

/-- C4, the code at the failing input. With only `invert_motor_2` set, one step per meter,
counts `(0, 0)` before and sample `(3, 5)`: line 177 overwrites `delta_1` with `-delta_2`,
so the deltas entering the kinematics are `(-5, 5)`, `u_w = 0` and `u_p = 10`; negating
`delta_1` would give `(-3, 5)`, `u_w = 1` and `u_p = 8`. -/
theorem invert_motor_2_overwrites_delta_1 :
    encoder_deltas wrap32 invert2Config originState ⟨3, 5⟩ = (-5, 5) ∧
    encoder_deltas wrap32 invert2Config originState ⟨3, 5⟩ ≠ (-3, 5) ∧
    u_w wrap32 invert2Config originState ⟨3, 5⟩ = 0 ∧
    u_w wrap32 invert2Config originState ⟨3, 5⟩
      ≠ ((5 : ℚ) - 3) / invert2Config.steps_per_meter / 2 ∧
    u_p wrap32 invert2Config originState ⟨3, 5⟩ = 10 ∧
    u_p wrap32 invert2Config originState ⟨3, 5⟩
      ≠ ((3 : ℚ) + 5) / invert2Config.steps_per_meter := by
  have hd : encoder_deltas wrap32 invert2Config originState ⟨3, 5⟩ = (-5, 5) := by
    simp only [encoder_deltas, invert2Config, unitConfig, originState]
    decide
  have hw : u_w wrap32 invert2Config originState ⟨3, 5⟩ = 0 := by
    have e : wrap32 0 = 0 := by decide
    simp [u_w, hd, e]
  have hp : u_p wrap32 invert2Config originState ⟨3, 5⟩ = 10 := by
    have e : wrap32 (5 - -5) = 10 := by decide
    simp only [u_p, hd, e]
    norm_num [invert2Config, unitConfig]
  refine ⟨hd, ?_, hw, ?_, hp, ?_⟩
  · rw [hd]; decide
  · rw [hw]; norm_num [invert2Config, unitConfig]
  · rw [hp]; norm_num [invert2Config, unitConfig]

/-! ## C5: pure rotation -/

/-- C5, counterexample. One step per meter, unit base width, no inversion, no swap, from
the origin, deltas `(1, -1)` (`d = 1`): the new heading is `-2`, not
`last_theta + 2*d/(steps_per_meter*base_width) = 2`. -/
theorem pure_rotation_sign :
    (unitConfig.invert_motor_1 = false ∧ unitConfig.invert_motor_2 = false ∧
      unitConfig.swap_motors = false) ∧
    (encoder_callback wrap32 (fun _ => 1) (fun _ => 0) unitConfig originState
      ⟨originState.last_steps_1 + 1, originState.last_steps_2 - 1⟩ 1).odom.yaw = -2 ∧
    (encoder_callback wrap32 (fun _ => 1) (fun _ => 0) unitConfig originState
      ⟨originState.last_steps_1 + 1, originState.last_steps_2 - 1⟩ 1).odom.yaw ≠
      originState.last_theta
        + 2 * ((1 : Int) : ℚ) / (unitConfig.steps_per_meter * unitConfig.base_width) := by
  have h : (encoder_callback wrap32 (fun _ => 1) (fun _ => 0) unitConfig originState
      ⟨originState.last_steps_1 + 1, originState.last_steps_2 - 1⟩ 1).odom.yaw = -2 := by
    norm_num [encoder_callback, u_p, encoder_deltas, unitConfig, originState, wrap32]
  refine ⟨⟨rfl, rfl, rfl⟩, h, ?_⟩
  rw [h]
  norm_num [unitConfig, originState]

/-- C5, amended. With both inversion flags false, `swap_motors` false, `steps_per_meter ≠ 0`
and `base_width ≠ 0`, for every state and every integer `d` with `|d| < 2^30` (so that
`2*d` is a 32-bit value), an update with deltas `delta_1 = d`, `delta_2 = -d` leaves the
position `(x, y)` unchanged and changes the heading by `-2*d/(steps_per_meter*base_width)`:
new theta `= last_theta - 2*d/(steps_per_meter*base_width)`. -/
theorem pure_rotation (cos sin : ℚ → ℚ) (c : Config) (s : State) (d : Int)
    (current_time : ℚ)
    (hinv1 : c.invert_motor_1 = false) (hinv2 : c.invert_motor_2 = false)
    (hswap : c.swap_motors = false)
    (_hspm : c.steps_per_meter ≠ 0) (_hbw : c.base_width ≠ 0)
    (hd : |d| < 1073741824) :
    let out := encoder_callback wrap32 cos sin c s
      ⟨s.last_steps_1 + d, s.last_steps_2 - d⟩ current_time
    u_w wrap32 c s ⟨s.last_steps_1 + d, s.last_steps_2 - d⟩ = 0 ∧
    out.odom.position_x = s.last_x ∧
    out.odom.position_y = s.last_y ∧
    out.odom.yaw = s.last_theta - 2 * (d : ℚ) / (c.steps_per_meter * c.base_width) := by
  intro out
  have hb := abs_lt.mp hd
  have w1 : wrap32 d = d := wrap32_of_fits (by unfold fits32; omega)
  have w2 : wrap32 (-d) = -d := wrap32_of_fits (by unfold fits32; omega)
  have w3 : wrap32 (-d - d) = -d - d := wrap32_of_fits (by unfold fits32; omega)
  have w0 : wrap32 0 = 0 := by decide
  have hdel : encoder_deltas wrap32 c s ⟨s.last_steps_1 + d, s.last_steps_2 - d⟩
      = (d, -d) := by
    simp [encoder_deltas, hinv1, hinv2, hswap, w1, w2]
  have hw : u_w wrap32 c s ⟨s.last_steps_1 + d, s.last_steps_2 - d⟩ = 0 := by
    simp [u_w, hdel, w0]
  refine ⟨hw, ?_, ?_, ?_⟩
  · simp [out, encoder_callback, hw]
  · simp [out, encoder_callback, hw]
  · simp only [out, encoder_callback, u_p, hdel, w3]
    push_cast
    rw [div_div]
    ring

/-- Witness of C5 (amended): the example configuration, from the origin, `d = 250`: the
position stays `(0, 0)` and the heading becomes `-1`. -/
theorem pure_rotation_witness :
    (exampleConfig.invert_motor_1 = false ∧ exampleConfig.invert_motor_2 = false ∧
      exampleConfig.swap_motors = false ∧ exampleConfig.steps_per_meter ≠ 0 ∧
      exampleConfig.base_width ≠ 0 ∧ |(250 : Int)| < 1073741824) ∧
    (encoder_callback wrap32 (fun _ => 1) (fun _ => 0) exampleConfig originState
      ⟨originState.last_steps_1 + 250, originState.last_steps_2 - 250⟩ 1).odom.position_x = 0 ∧
    (encoder_callback wrap32 (fun _ => 1) (fun _ => 0) exampleConfig originState
      ⟨originState.last_steps_1 + 250, originState.last_steps_2 - 250⟩ 1).odom.position_y = 0 ∧
    (encoder_callback wrap32 (fun _ => 1) (fun _ => 0) exampleConfig originState
      ⟨originState.last_steps_1 + 250, originState.last_steps_2 - 250⟩ 1).odom.yaw = -1 := by
  have hs : exampleConfig.steps_per_meter ≠ 0 := by norm_num [exampleConfig]
  have hb : exampleConfig.base_width ≠ 0 := by norm_num [exampleConfig]
  have hd : |(250 : Int)| < 1073741824 := by decide
  have h := pure_rotation (fun _ => 1) (fun _ => 0) exampleConfig originState 250 1
    rfl rfl rfl hs hb hd
  simp only [] at h
  obtain ⟨-, hx, hy, ht⟩ := h
  refine ⟨⟨rfl, rfl, rfl, hs, hb, hd⟩, ?_, ?_, ?_⟩
  · rw [hx]; rfl
  · rw [hy]; rfl
  · rw [ht]; norm_num [exampleConfig, originState]

/-! ## C6: straight-line motion -/

/-- C6, counterexample. One step per meter, unit base width, no inversion, no swap, from
the origin, deltas `(2^30, 2^30)` (`d = 2^30`), `cos 0 = 1`: line 185 adds the deltas as
32-bit `int`s, `2^30 + 2^30` wraps to `-2^31`, and the reported `x` is `-2^30`, not
`last_x + d/steps_per_meter * cos(last_theta) = 2^30`. -/
theorem straight_line_overflow :
    (unitConfig.invert_motor_1 = false ∧ unitConfig.invert_motor_2 = false ∧
      fits32 (originState.last_steps_1 + 1073741824) ∧
      fits32 (originState.last_steps_2 + 1073741824)) ∧
    (encoder_callback wrap32 (fun _ => 1) (fun _ => 0) unitConfig originState
      ⟨originState.last_steps_1 + 1073741824, originState.last_steps_2 + 1073741824⟩
      1).odom.position_x = -1073741824 ∧
    (encoder_callback wrap32 (fun _ => 1) (fun _ => 0) unitConfig originState
      ⟨originState.last_steps_1 + 1073741824, originState.last_steps_2 + 1073741824⟩
      1).odom.position_x ≠
      originState.last_x + ((1073741824 : Int) : ℚ) / unitConfig.steps_per_meter * 1 := by
  have h : (encoder_callback wrap32 (fun _ => 1) (fun _ => 0) unitConfig originState
      ⟨originState.last_steps_1 + 1073741824, originState.last_steps_2 + 1073741824⟩
      1).odom.position_x = -1073741824 := by
    norm_num [encoder_callback, u_w, encoder_deltas, unitConfig, originState, wrap32]
  refine ⟨⟨rfl, rfl, by decide, by decide⟩, h, ?_⟩
  rw [h]
  norm_num [unitConfig, originState]

/-- C6, amended. Straight-line motion in `encoder_callback`: with both inversion flags
false (`swap_motors` either way), `steps_per_meter ≠ 0` and `base_width ≠ 0`, for every
state and every integer `d` with `|d| < 2^30` (so that `2*d` is a 32-bit value), an update
with deltas `delta_1 = delta_2 = d` leaves the heading unchanged and moves the position by
`d / steps_per_meter` along the current heading.  In particular, with `base_width = 0.5`,
`steps_per_meter = 1000`, pose `(0, 0, 0)` and `d = 1000` the new pose is `(1, 0, 0)`
(given `cos 0 = 1` and `sin 0 = 0`). -/
theorem straight_line (cos sin : ℚ → ℚ) (c : Config) (s : State) (d : Int)
    (current_time : ℚ)
    (hinv1 : c.invert_motor_1 = false) (hinv2 : c.invert_motor_2 = false)
    (_hspm : c.steps_per_meter ≠ 0) (_hbw : c.base_width ≠ 0)
    (hd : |d| < 1073741824) :
    let out := encoder_callback wrap32 cos sin c s
      ⟨s.last_steps_1 + d, s.last_steps_2 + d⟩ current_time
    (out.odom.yaw = s.last_theta ∧
      out.odom.position_x = s.last_x + (d : ℚ) / c.steps_per_meter * cos s.last_theta ∧
      out.odom.position_y = s.last_y + (d : ℚ) / c.steps_per_meter * sin s.last_theta) ∧
    (c.base_width = 1 / 2 → c.steps_per_meter = 1000 → d = 1000 →
      s.last_x = 0 → s.last_y = 0 → s.last_theta = 0 → cos 0 = 1 → sin 0 = 0 →
      out.odom.position_x = 1 ∧ out.odom.position_y = 0 ∧ out.odom.yaw = 0) := by
  intro out
  have hb := abs_lt.mp hd
  have w1 : wrap32 d = d := wrap32_of_fits (by unfold fits32; omega)
  have w2 : wrap32 (d + d) = d + d := wrap32_of_fits (by unfold fits32; omega)
  have w0 : wrap32 0 = 0 := by decide
  have hdel : encoder_deltas wrap32 c s ⟨s.last_steps_1 + d, s.last_steps_2 + d⟩
      = (d, d) := by
    cases hs : c.swap_motors <;> simp [encoder_deltas, hinv1, hinv2, hs, w1]
  have hw : u_w wrap32 c s ⟨s.last_steps_1 + d, s.last_steps_2 + d⟩
      = (d : ℚ) / c.steps_per_meter := by
    simp only [u_w, hdel, w2]
    push_cast
    ring
  have hp : u_p wrap32 c s ⟨s.last_steps_1 + d, s.last_steps_2 + d⟩ = 0 := by
    simp [u_p, hdel, w0]
  have hyaw : out.odom.yaw = s.last_theta := by
    simp [out, encoder_callback, hp]
  have hx : out.odom.position_x
      = s.last_x + (d : ℚ) / c.steps_per_meter * cos s.last_theta := by
    simp [out, encoder_callback, hw]
  have hy : out.odom.position_y
      = s.last_y + (d : ℚ) / c.steps_per_meter * sin s.last_theta := by
    simp [out, encoder_callback, hw]
  refine ⟨⟨hyaw, hx, hy⟩, ?_⟩
  intro _ hspm hd1000 h0x h0y h0t hcos hsin
  rw [hx, hy, hyaw, hspm, hd1000, h0x, h0y, h0t, hcos, hsin]
  norm_num

/-- Witness of C6 (amended): the example scenario of the specification, base width 0.5,
1000 steps per meter, pose `(0, 0, 0)`, deltas `(1000, 1000)`: the new pose is
`(1, 0, 0)`. -/
theorem straight_line_witness :
    (exampleConfig.invert_motor_1 = false ∧ exampleConfig.invert_motor_2 = false ∧
      exampleConfig.steps_per_meter ≠ 0 ∧ exampleConfig.base_width ≠ 0 ∧
      |(1000 : Int)| < 1073741824) ∧
    (encoder_callback wrap32 (fun _ => 1) (fun _ => 0) exampleConfig originState
      ⟨originState.last_steps_1 + 1000, originState.last_steps_2 + 1000⟩ 1).odom.position_x = 1 ∧
    (encoder_callback wrap32 (fun _ => 1) (fun _ => 0) exampleConfig originState
      ⟨originState.last_steps_1 + 1000, originState.last_steps_2 + 1000⟩ 1).odom.position_y = 0 ∧
    (encoder_callback wrap32 (fun _ => 1) (fun _ => 0) exampleConfig originState
      ⟨originState.last_steps_1 + 1000, originState.last_steps_2 + 1000⟩ 1).odom.yaw = 0 := by
  have hs : exampleConfig.steps_per_meter ≠ 0 := by norm_num [exampleConfig]
  have hb : exampleConfig.base_width ≠ 0 := by norm_num [exampleConfig]
  have hd : |(1000 : Int)| < 1073741824 := by decide
  exact ⟨⟨rfl, rfl, hs, hb, hd⟩,
    (straight_line (fun _ => 1) (fun _ => 0) exampleConfig originState 1000 1 rfl rfl
      hs hb hd).2 rfl rfl rfl rfl rfl rfl rfl rfl⟩

/-! ## C7: inversion is applied before swap -/

/-- C8, counterexample. One step per meter, unit base width, both maxima 1000, no
inversion, no swap, command `(0, 2000, 0)`: the lateral speed is not clipped, wheel 2 is
published as 2000, above `1*1000 + 1*1000*1/2 = 1500`. -/
theorem lateral_exceeds_bound :
    (0 < unitConfig.steps_per_meter ∧ 0 < unitConfig.base_width ∧
      0 ≤ unitConfig.max_linear_speed ∧ 0 ≤ unitConfig.max_angular_speed) ∧
    (twist_callback id unitConfig ⟨0, 2000, 0, 0, 0, 0⟩).motor_vel.mot2_vel_sps = 2000 ∧
    ¬ |(((twist_callback id unitConfig ⟨0, 2000, 0, 0, 0, 0⟩).motor_vel.mot2_vel_sps : Int)
        : ℚ)|
      ≤ unitConfig.steps_per_meter * unitConfig.max_linear_speed
        + unitConfig.steps_per_meter * unitConfig.max_angular_speed
          * unitConfig.base_width / 2 := by
  have h : (twist_callback id unitConfig ⟨0, 2000, 0, 0, 0, 0⟩).motor_vel.mot2_vel_sps
      = 2000 := by
    have e : toInt 2000 = 2000 := by simpa using toInt_intCast (z := 2000) (by decide)
    have w1 : wrap32 2000 = 2000 := by decide
    rw [twist_callback_motor_vel]
    norm_num [wheel_2, base_steps, lateral_steps, angular_value, clip, unitConfig,
      toInt_zero, e]
    rw [w1, w1]
  refine ⟨⟨?_, ?_, ?_, ?_⟩, h, ?_⟩
  · norm_num [unitConfig]
  · norm_num [unitConfig]
  · norm_num [unitConfig]
  · norm_num [unitConfig]
  · rw [h]
    norm_num [unitConfig]

/-- C8, amended. With `steps_per_meter > 0`, `base_width > 0`, `max_linear_speed ≥ 0` and
`max_angular_speed ≥ 0`, for every command `(vx, vy, wz)` and every setting of the flags,
each wheel setpoint published by `twist_callback` has absolute value at most
`steps_per_meter*max_linear_speed + steps_per_meter*|vy| +
steps_per_meter*max_angular_speed*base_width/2`: the lateral speed, which is not clipped,
adds its own share to the bound.  (Exact `double` products; the 32-bit conversions, sums
and negations never increase a magnitude.) -/
theorem setpoint_bound_with_lateral (c : Config) (msg : Twist)
    (hspm : 0 < c.steps_per_meter) (hbw : 0 < c.base_width)
    (hlin : 0 ≤ c.max_linear_speed) (hang : 0 ≤ c.max_angular_speed) :
    |(((twist_callback id c msg).motor_vel.mot1_vel_sps : Int) : ℚ)| ≤
      c.steps_per_meter * c.max_linear_speed + c.steps_per_meter * |msg.linear_y|
        + c.steps_per_meter * c.max_angular_speed * c.base_width / 2 ∧
    |(((twist_callback id c msg).motor_vel.mot2_vel_sps : Int) : ℚ)| ≤
      c.steps_per_meter * c.max_linear_speed + c.steps_per_meter * |msg.linear_y|
        + c.steps_per_meter * c.max_angular_speed * c.base_width / 2 := by
  have b1 := abs_wheel_1_le c msg hspm hbw hlin hang
  have b2 := abs_wheel_2_le c msg hspm hbw hlin hang
  have n1 := abs_neg32_le b1
  have n2 := abs_neg32_le b2
  rw [twist_callback_motor_vel]
  cases c.invert_motor_1 <;> cases c.invert_motor_2 <;> cases c.swap_motors <;>
    simp [b1, b2, n1, n2]

/-- Witness of C8 (amended): the command `(0, 2000, 0)` of the counterexample, within
`1000 + 2000 + 500`. -/
theorem setpoint_bound_with_lateral_witness :
    (0 < unitConfig.steps_per_meter ∧ 0 < unitConfig.base_width ∧
      0 ≤ unitConfig.max_linear_speed ∧ 0 ≤ unitConfig.max_angular_speed) ∧
    |(((twist_callback id unitConfig ⟨0, 2000, 0, 0, 0, 0⟩).motor_vel.mot2_vel_sps : Int)
        : ℚ)|
      ≤ 3500 := by
  have h1 : 0 < unitConfig.steps_per_meter := by norm_num [unitConfig]
  have h2 : 0 < unitConfig.base_width := by norm_num [unitConfig]
  have h3 : 0 ≤ unitConfig.max_linear_speed := by norm_num [unitConfig]
  have h4 : 0 ≤ unitConfig.max_angular_speed := by norm_num [unitConfig]
  refine ⟨⟨h1, h2, h3, h4⟩, ?_⟩
  refine (setpoint_bound_with_lateral unitConfig ⟨0, 2000, 0, 0, 0, 0⟩ h1 h2 h3 h4).2.trans ?_
  have e : |(2000 : ℚ)| = 2000 := abs_of_pos (by norm_num)
  simp only [unitConfig, e]
  norm_num

/-! ## C9: the setpoints are computed from the clamped command -/

/-- C9. Setpoints are computed from the clamped command: with non-negative maxima, for every
command `(vx, vy, wz)`, `twist_callback` publishes the same motor command and the same
filtered echo for `(vx, vy, wz)` as for `(clamp vx, vy, clamp wz)`; in particular a command
with `vx = max_linear_speed + 5` yields the echo `vx = max_linear_speed` and the setpoints of
the command with `vx = max_linear_speed`. -/
theorem setpoints_from_clamped (fl : ℚ → ℚ) (c : Config) (msg : Twist)
    (hlin : 0 ≤ c.max_linear_speed) (hang : 0 ≤ c.max_angular_speed) :
    twist_callback fl c msg =
      twist_callback fl c
        { msg with
          linear_x := clamp msg.linear_x (-c.max_linear_speed) c.max_linear_speed
          angular_z := clamp msg.angular_z (-c.max_angular_speed) c.max_angular_speed } ∧
    (twist_callback fl c
        { msg with linear_x := c.max_linear_speed + 5 }).filtered_twist.linear_x
      = c.max_linear_speed ∧
    (twist_callback fl c { msg with linear_x := c.max_linear_speed + 5 }).motor_vel
      = (twist_callback fl c { msg with linear_x := c.max_linear_speed }).motor_vel := by
  have ext : ∀ a b : TwistOutput, a.motor_vel = b.motor_vel →
      a.filtered_twist = b.filtered_twist → a = b := by
    intro a b h1 h2
    cases a; cases b; simp_all
  have hx := clip_clip msg.linear_x c.max_linear_speed hlin
  have hz := clip_clip msg.angular_z c.max_angular_speed hang
  have h5 : clip (c.max_linear_speed + 5) c.max_linear_speed = c.max_linear_speed := by
    unfold clip
    rw [if_pos (by linarith)]
  have h0 : clip c.max_linear_speed c.max_linear_speed = c.max_linear_speed :=
    clip_of_abs_le _ _ (by rw [abs_of_nonneg hlin])
  refine ⟨?_, ?_, ?_⟩
  · apply ext
    · simp only [twist_callback_motor_vel, wheel_1, wheel_2, base_steps, lateral_steps,
        angular_value, ← clip_eq_clamp _ _ hlin, ← clip_eq_clamp _ _ hang, hx, hz]
    · simp only [twist_callback_filtered,
        ← clip_eq_clamp _ _ hlin, ← clip_eq_clamp _ _ hang, hx, hz]
  · simp only [twist_callback_filtered, h5]
  · simp only [twist_callback_motor_vel, wheel_1, wheel_2, base_steps, lateral_steps,
      angular_value, h5, h0]

/-- Witness of C9: bounds 1000, command `(2000, 7, -3000)`: it is treated as the clamped
command `(1000, 7, -1000)`. -/
theorem setpoints_from_clamped_witness :
    (0 ≤ unitConfig.max_linear_speed ∧ 0 ≤ unitConfig.max_angular_speed) ∧
    twist_callback id unitConfig ⟨2000, 7, 0, 0, 0, -3000⟩ =
      twist_callback id unitConfig ⟨1000, 7, 0, 0, 0, -1000⟩ := by
  have hlin : 0 ≤ unitConfig.max_linear_speed := by norm_num [unitConfig]
  have hang : 0 ≤ unitConfig.max_angular_speed := by norm_num [unitConfig]
  refine ⟨⟨hlin, hang⟩, ?_⟩
  rw [(setpoints_from_clamped id unitConfig ⟨2000, 7, 0, 0, 0, -3000⟩ hlin hang).1]
  have h1 : clamp 2000 (-unitConfig.max_linear_speed) unitConfig.max_linear_speed = 1000 := by
    unfold clamp
    rw [min_eq_right (by norm_num [unitConfig]), max_eq_right (by norm_num [unitConfig])]
    rfl
  have h2 : clamp (-3000) (-unitConfig.max_angular_speed) unitConfig.max_angular_speed
      = -1000 := by
    unfold clamp
    rw [min_eq_left (by norm_num [unitConfig]), max_eq_left (by norm_num [unitConfig])]
    rfl
  simp only [h1, h2]

/-! ## C10: degenerate sampling interval -/

/-- C10, counterexample. One step per meter, `cos 0 = 1`, `sin 0 = 0`: a first update at
time 1 (`dt = 1`, sample `(1, 1)`) reports the twist `(1, 0, 0)`.  A second update with the
same time stamp 1 (`dt = 0`, sample `(2, 2)`) reports a linear velocity that is not finite,
the quotient `(2 - 1) / 0`; with the earlier time stamp 0 (`dt = -1`) it reports
`(2 - 1) / (-1) = -1`.  Either way the velocity was computed by dividing by `dt`, it is
neither zero nor the prior twist. -/
theorem degenerate_interval_not_skipped :
    ((1 : ℚ) - (encoder_callback wrap32 (fun _ => 1) (fun _ => 0) unitConfig originState
        ⟨1, 1⟩ 1).state.last_time ≤ 0 ∧
      (0 : ℚ) - (encoder_callback wrap32 (fun _ => 1) (fun _ => 0) unitConfig originState
        ⟨1, 1⟩ 1).state.last_time ≤ 0) ∧
    (encoder_callback wrap32 (fun _ => 1) (fun _ => 0) unitConfig originState
      ⟨1, 1⟩ 1).odom.twist_linear_x = some 1 ∧
    (encoder_callback wrap32 (fun _ => 1) (fun _ => 0) unitConfig
      (encoder_callback wrap32 (fun _ => 1) (fun _ => 0) unitConfig originState ⟨1, 1⟩ 1).state
      ⟨2, 2⟩ 1).odom.twist_linear_x = none ∧
    (encoder_callback wrap32 (fun _ => 1) (fun _ => 0) unitConfig
      (encoder_callback wrap32 (fun _ => 1) (fun _ => 0) unitConfig originState ⟨1, 1⟩ 1).state
      ⟨2, 2⟩ 0).odom.twist_linear_x = some (-1) ∧
    ¬ ((encoder_callback wrap32 (fun _ => 1) (fun _ => 0) unitConfig
        (encoder_callback wrap32 (fun _ => 1) (fun _ => 0) unitConfig originState ⟨1, 1⟩ 1).state
        ⟨2, 2⟩ 0).odom.twist_linear_x = some 0 ∨
      (encoder_callback wrap32 (fun _ => 1) (fun _ => 0) unitConfig
        (encoder_callback wrap32 (fun _ => 1) (fun _ => 0) unitConfig originState ⟨1, 1⟩ 1).state
        ⟨2, 2⟩ 0).odom.twist_linear_x =
      (encoder_callback wrap32 (fun _ => 1) (fun _ => 0) unitConfig originState
        ⟨1, 1⟩ 1).odom.twist_linear_x) := by
  have h1 : (encoder_callback wrap32 (fun _ => 1) (fun _ => 0) unitConfig originState
      ⟨1, 1⟩ 1).odom.twist_linear_x = some 1 := by
    norm_num [encoder_callback, fdiv, u_w, encoder_deltas, unitConfig, originState, wrap32]
  have h2 : (encoder_callback wrap32 (fun _ => 1) (fun _ => 0) unitConfig
      (encoder_callback wrap32 (fun _ => 1) (fun _ => 0) unitConfig originState ⟨1, 1⟩ 1).state
      ⟨2, 2⟩ 1).odom.twist_linear_x = none := by
    norm_num [encoder_callback, fdiv]
  have h3 : (encoder_callback wrap32 (fun _ => 1) (fun _ => 0) unitConfig
      (encoder_callback wrap32 (fun _ => 1) (fun _ => 0) unitConfig originState ⟨1, 1⟩ 1).state
      ⟨2, 2⟩ 0).odom.twist_linear_x = some (-1) := by
    norm_num [encoder_callback, fdiv, u_w, encoder_deltas, unitConfig, originState, wrap32]
  refine ⟨⟨?_, ?_⟩, h1, h2, h3, ?_⟩
  · norm_num [encoder_callback]
  · norm_num [encoder_callback]
  · rw [h3, h1]
    norm_num

/-- C10, amended. For every encoder update whose time stamp is equal to or earlier than
the previous sample time (`dt ≤ 0`) the estimator divides by `dt` exactly as for `dt > 0`
and nothing is skipped: for `dt < 0` each component of the reported twist is finite and is
the pose difference divided by `dt`; for `dt = 0` no component of the reported twist is
finite.  The pose is the one integrated for any `dt > 0`. -/
theorem degenerate_interval_twist (cos sin : ℚ → ℚ) (c : Config) (s : State)
    (msg : RoboclawEncoderSteps) (current_time : ℚ)
    (hdt : current_time - s.last_time ≤ 0) :
    let out := encoder_callback wrap32 cos sin c s msg current_time
    ((current_time - s.last_time < 0 ∧
        out.odom.twist_linear_x
          = some ((out.odom.position_x - s.last_x) / (current_time - s.last_time)) ∧
        out.odom.twist_linear_y
          = some ((out.odom.position_y - s.last_y) / (current_time - s.last_time)) ∧
        out.odom.twist_angular_z
          = some ((out.odom.yaw - s.last_theta) / (current_time - s.last_time))) ∨
      (current_time - s.last_time = 0 ∧
        out.odom.twist_linear_x = none ∧
        out.odom.twist_linear_y = none ∧
        out.odom.twist_angular_z = none)) ∧
    (∀ later : ℚ, later - s.last_time > 0 →
      out.odom.position_x = (encoder_callback wrap32 cos sin c s msg later).odom.position_x ∧
      out.odom.position_y = (encoder_callback wrap32 cos sin c s msg later).odom.position_y ∧
      out.odom.yaw = (encoder_callback wrap32 cos sin c s msg later).odom.yaw) := by
  intro out
  refine ⟨?_, fun later _ => ⟨rfl, rfl, rfl⟩⟩
  rcases lt_or_eq_of_le hdt with hlt | heq
  · have hne : current_time - s.last_time ≠ 0 := ne_of_lt hlt
    refine Or.inl ⟨hlt, ?_, ?_, ?_⟩ <;> simp [out, encoder_callback, fdiv, hne]
  · refine Or.inr ⟨heq, ?_, ?_, ?_⟩ <;> simp [out, encoder_callback, fdiv, heq]

/-- Witness of C10 (amended): from the origin with last sample time 0, an update stamped
`-1` with sample `(1, 1)`: the position advances by 1 and the linear velocity is `-1`. -/
theorem degenerate_interval_twist_witness :
    (-1 : ℚ) - originState.last_time ≤ 0 ∧
    (encoder_callback wrap32 (fun _ => 1) (fun _ => 0) unitConfig originState
      ⟨1, 1⟩ (-1)).odom.twist_linear_x = some (-1) := by
  have hdt : (-1 : ℚ) - originState.last_time ≤ 0 := by norm_num [originState]
  refine ⟨hdt, ?_⟩
  rcases (degenerate_interval_twist (fun _ => 1) (fun _ => 0) unitConfig originState
    ⟨1, 1⟩ (-1) hdt).1 with h | h
  · rw [h.2.1]
    norm_num [encoder_callback, u_w, encoder_deltas, unitConfig, originState, wrap32]
  · exact absurd h.1 (by norm_num [originState])

/-! ## C11: velocity estimate -/

/-- C11. Velocity estimate of `encoder_callback`: for every update with
`dt = now - last_sample_time > 0` the reported twist is the componentwise pose difference
divided by `dt`: `linear.x = (cur_x - last_x)/dt`, `linear.y = (cur_y - last_y)/dt`,
`angular.z = (cur_theta - last_theta)/dt`, where `last_*` is the pose before the update and
`cur_*` the pose reported and stored by it. -/
theorem velocity_estimate (cos sin : ℚ → ℚ) (c : Config) (s : State)
    (msg : RoboclawEncoderSteps) (current_time : ℚ)
    (hdt : current_time - s.last_time > 0) :
    let out := encoder_callback wrap32 cos sin c s msg current_time
    (out.odom.twist_linear_x
        = some ((out.odom.position_x - s.last_x) / (current_time - s.last_time)) ∧
      out.odom.twist_linear_y
        = some ((out.odom.position_y - s.last_y) / (current_time - s.last_time)) ∧
      out.odom.twist_angular_z
        = some ((out.odom.yaw - s.last_theta) / (current_time - s.last_time))) ∧
    (out.odom.position_x = out.state.last_x ∧ out.odom.position_y = out.state.last_y ∧
      out.odom.yaw = out.state.last_theta) := by
  intro out
  have hne : current_time - s.last_time ≠ 0 := ne_of_gt hdt
  refine ⟨⟨?_, ?_, ?_⟩, rfl, rfl, rfl⟩ <;> simp [out, encoder_callback, fdiv, hne]

/-- Witness of C11: the example configuration, from the origin with last sample time 0, an
update at time 2 with sample `(1000, 1000)`: the position advances by 1 and the linear
velocity is `1/2`. -/
theorem velocity_estimate_witness :
    (2 : ℚ) - originState.last_time > 0 ∧
    (encoder_callback wrap32 (fun _ => 1) (fun _ => 0) exampleConfig originState
      ⟨1000, 1000⟩ 2).odom.twist_linear_x = some (1 / 2) := by
  have hdt : (2 : ℚ) - originState.last_time > 0 := by norm_num [originState]
  refine ⟨hdt, ?_⟩
  rw [(velocity_estimate (fun _ => 1) (fun _ => 0) exampleConfig originState ⟨1000, 1000⟩ 2
    hdt).1.1]
  norm_num [encoder_callback, u_w, encoder_deltas, exampleConfig, originState, wrap32]

/-! ## C12: state commit -/

/-- C12. State commit of `encoder_callback`: for every state, configuration and encoder
sample `(steps_1, steps_2, now)`, after the update the estimator state is exactly: last
encoder counts `(steps_1, steps_2)`, the raw counts, last pose the pose reported in this
update, last sample time `now`; the next update measures its deltas (32-bit differences)
and its `dt` from this sample. -/
theorem state_commit (cos sin : ℚ → ℚ) (c : Config) (s : State)
    (msg : RoboclawEncoderSteps) (current_time : ℚ)
    (next : RoboclawEncoderSteps) (next_time : ℚ) :
    let out := encoder_callback wrap32 cos sin c s msg current_time
    let out2 := encoder_callback wrap32 cos sin c out.state next next_time
    out.state =
      { last_x := out.odom.position_x
        last_y := out.odom.position_y
        last_theta := out.odom.yaw
        last_steps_1 := msg.mot1_enc_steps
        last_steps_2 := msg.mot2_enc_steps
        last_time := current_time } ∧
    encoder_deltas wrap32
        { c with invert_motor_1 := false, invert_motor_2 := false, swap_motors := false }
        out.state next
      = (wrap32 (next.mot1_enc_steps - msg.mot1_enc_steps),
        wrap32 (next.mot2_enc_steps - msg.mot2_enc_steps)) ∧
    out2.odom.twist_linear_x
      = fdiv (out2.odom.position_x - out.odom.position_x) (next_time - current_time) ∧
    out2.odom.twist_linear_y
      = fdiv (out2.odom.position_y - out.odom.position_y) (next_time - current_time) ∧
    out2.odom.twist_angular_z
      = fdiv (out2.odom.yaw - out.odom.yaw) (next_time - current_time) := by
  intro out out2
  refine ⟨rfl, ?_, rfl, rfl, rfl⟩
  simp [out, encoder_deltas, encoder_callback]

/-! ## C13: lateral contribution -/

/-- C13, counterexample. One step per meter, unit base width, both speed bounds 1000, no
inversion, no swap, command `(0, 3000000000, 0)`: the product `steps_per_meter*vy` is
`3000000000`, which is not a 32-bit value, and the conversion to `int` of line 121 yields
`-2^31`; wheel 2 is published as `-2147483648`, not as `trunc(steps_per_meter*vy)`. -/
theorem lateral_overflow :
    (unitConfig.invert_motor_1 = false ∧ unitConfig.invert_motor_2 = false ∧
      unitConfig.swap_motors = false ∧ 0 ≤ unitConfig.max_linear_speed ∧
      0 ≤ unitConfig.max_angular_speed ∧ (3000000000 : ℚ) > 0) ∧
    (twist_callback id unitConfig ⟨0, 3000000000, 0, 0, 0, 0⟩).motor_vel.mot2_vel_sps
      = -2147483648 ∧
    truncate (unitConfig.steps_per_meter * 3000000000) = 3000000000 ∧
    (twist_callback id unitConfig ⟨0, 3000000000, 0, 0, 0, 0⟩).motor_vel.mot2_vel_sps
      ≠ truncate (unitConfig.steps_per_meter * 3000000000) := by
  have ht : truncate (unitConfig.steps_per_meter * 3000000000) = 3000000000 := by
    have e : unitConfig.steps_per_meter * 3000000000 = ((3000000000 : Int) : ℚ) := by
      norm_num [unitConfig]
    rw [e, truncate_intCast]
  have hc : toInt (3000000000 : ℚ) = -2147483648 := by
    have e : truncate (3000000000 : ℚ) = 3000000000 := by
      simpa using truncate_intCast 3000000000
    unfold toInt
    rw [e, if_neg (by decide)]
  have h : (twist_callback id unitConfig ⟨0, 3000000000, 0, 0, 0, 0⟩).motor_vel.mot2_vel_sps
      = -2147483648 := by
    have w : wrap32 (-2147483648) = -2147483648 := by decide
    rw [twist_callback_motor_vel]
    norm_num [wheel_2, base_steps, lateral_steps, angular_value, clip, unitConfig,
      toInt_zero, hc, w]
  refine ⟨⟨rfl, rfl, rfl, ?_, ?_, by norm_num⟩, h, ht, ?_⟩
  · norm_num [unitConfig]
  · norm_num [unitConfig]
  · rw [h, ht]
    decide

/-- C13, amended. Lateral contribution of `twist_callback`: with no inversion and no swap
(and the non-negative speed bounds that the specification requires of a configuration), for
every command `(0, vy, 0)` for which the truncation toward zero of the `double` product
`steps_per_meter*vy` is a 32-bit value: if `vy > 0` the setpoints are
`(0, trunc(steps_per_meter*vy))`; if `vy < 0` they are `(trunc(steps_per_meter*vy), 0)`; if
`vy = 0` they are `(0, 0)`.  A positive `vy` is added to wheel 2 only and a negative `vy` to
wheel 1 only.  The product is the one computed in `double` arithmetic, for any rounding
`fl` that leaves zero unchanged. -/
theorem lateral_contribution (fl : ℚ → ℚ) (c : Config) (msg : Twist)
    (hfl : fl 0 = 0)
    (hinv1 : c.invert_motor_1 = false) (hinv2 : c.invert_motor_2 = false)
    (hswap : c.swap_motors = false)
    (hlin : 0 ≤ c.max_linear_speed) (hang : 0 ≤ c.max_angular_speed)
    (hvx : msg.linear_x = 0) (hwz : msg.angular_z = 0)
    (hfit : fits32 (truncate (fl (c.steps_per_meter * msg.linear_y)))) :
    (msg.linear_y > 0 →
      (twist_callback fl c msg).motor_vel.mot1_vel_sps = 0 ∧
      (twist_callback fl c msg).motor_vel.mot2_vel_sps
        = truncate (fl (c.steps_per_meter * msg.linear_y))) ∧
    (msg.linear_y < 0 →
      (twist_callback fl c msg).motor_vel.mot1_vel_sps
        = truncate (fl (c.steps_per_meter * msg.linear_y)) ∧
      (twist_callback fl c msg).motor_vel.mot2_vel_sps = 0) ∧
    (msg.linear_y = 0 →
      (twist_callback fl c msg).motor_vel.mot1_vel_sps = 0 ∧
      (twist_callback fl c msg).motor_vel.mot2_vel_sps = 0) := by
  have cx : clip msg.linear_x c.max_linear_speed = 0 := by
    rw [hvx]
    exact clip_of_abs_le 0 _ (by simpa using hlin)
  have cz : clip msg.angular_z c.max_angular_speed = 0 := by
    rw [hwz]
    exact clip_of_abs_le 0 _ (by simpa using hang)
  have hb : base_steps fl c msg = 0 := by
    simp [base_steps, cx, hfl, toInt_zero]
  have ha : angular_value fl c msg = 0 := by
    simp [angular_value, cz, hfl]
  have w0 : wrap32 0 = 0 := by decide
  have hl : toInt (fl (c.steps_per_meter * msg.linear_y))
      = truncate (fl (c.steps_per_meter * msg.linear_y)) := toInt_of_fits hfit
  have wl : wrap32 (truncate (fl (c.steps_per_meter * msg.linear_y)))
      = truncate (fl (c.steps_per_meter * msg.linear_y)) := wrap32_of_fits hfit
  rw [twist_callback_motor_vel]
  simp only [wheel_1, wheel_2, hb, ha, hinv1, hinv2, hswap, lateral_steps, hl]
  refine ⟨fun h => ?_, fun h => ?_, fun h => ?_⟩
  · simp [toInt_zero, h, not_lt.mpr h.le, w0, wl]
  · simp [toInt_zero, h, not_lt.mpr h.le, w0, wl]
  · simp [toInt_zero, h, w0]

/-- Witness of C13 (amended): one step per meter, bounds 1000, exact products, command
`(0, 5, 0)`: the setpoints are `(0, 5)`. -/
theorem lateral_contribution_witness :
    (id (0 : ℚ) = 0 ∧ unitConfig.invert_motor_1 = false ∧ unitConfig.invert_motor_2 = false ∧
      unitConfig.swap_motors = false ∧ 0 ≤ unitConfig.max_linear_speed ∧
      0 ≤ unitConfig.max_angular_speed ∧ (5 : ℚ) > 0 ∧
      fits32 (truncate (id (unitConfig.steps_per_meter * 5)))) ∧
    (twist_callback id unitConfig ⟨0, 5, 0, 0, 0, 0⟩).motor_vel.mot1_vel_sps = 0 ∧
    (twist_callback id unitConfig ⟨0, 5, 0, 0, 0, 0⟩).motor_vel.mot2_vel_sps = 5 := by
  have hlin : 0 ≤ unitConfig.max_linear_speed := by norm_num [unitConfig]
  have hang : 0 ≤ unitConfig.max_angular_speed := by norm_num [unitConfig]
  have h5 : (5 : ℚ) > 0 := by norm_num
  have e : id (unitConfig.steps_per_meter * (5 : ℚ)) = ((5 : Int) : ℚ) := by
    norm_num [unitConfig]
  have ht : truncate (id (unitConfig.steps_per_meter * 5)) = 5 := by
    rw [e, truncate_intCast]
  have hfit : fits32 (truncate (id (unitConfig.steps_per_meter * 5))) := by
    rw [ht]
    decide
  have h := (lateral_contribution id unitConfig ⟨0, 5, 0, 0, 0, 0⟩ rfl rfl rfl rfl hlin hang
    rfl rfl hfit).1 h5
  refine ⟨⟨rfl, rfl, rfl, rfl, hlin, hang, h5, hfit⟩, h.1, ?_⟩
  rw [h.2]
  exact ht

/-! ## C14: the broadcast transform -/

/-- C14. Transform output of `encoder_callback`: for every update the broadcast transform
from the odom frame to the base frame has translation `(last_x, last_y, 0)`, the position
before this update, and yaw equal to the new heading `cur_theta`, while the odometry sample
of the same update carries the new position `(cur_x, cur_y)` and the same new heading. -/
theorem transform_output (cos sin : ℚ → ℚ) (c : Config) (s : State)
    (msg : RoboclawEncoderSteps) (current_time : ℚ) :
    let out := encoder_callback wrap32 cos sin c s msg current_time
    let cur_x := s.last_x + u_w wrap32 c s msg * cos s.last_theta
    let cur_y := s.last_y + u_w wrap32 c s msg * sin s.last_theta
    let cur_theta := s.last_theta + u_p wrap32 c s msg / c.base_width
    (out.transform.origin_x = s.last_x ∧ out.transform.origin_y = s.last_y ∧
      out.transform.origin_z = 0 ∧ out.transform.yaw = cur_theta) ∧
    (out.odom.position_x = cur_x ∧ out.odom.position_y = cur_y ∧ out.odom.yaw = cur_theta) ∧
    (out.transform.frame_id = out.odom.frame_id ∧
      out.transform.child_frame_id = out.odom.child_frame_id) :=
  ⟨⟨rfl, rfl, rfl, rfl⟩, ⟨rfl, rfl, rfl⟩, rfl, rfl⟩

/-! ## C15: determinism of the pose sequence -/

/-- One update from two states that agree on the pose and on the encoder counts reports the
same pose and leaves states that agree again, whatever the two clock reads and the two last
sample times. -/
theorem encoder_callback_pose_congr (cos sin : ℚ → ℚ) (c : Config) (s1 s2 : State)
    (msg : RoboclawEncoderSteps) (t1 t2 : ℚ)
    (hx : s1.last_x = s2.last_x) (hy : s1.last_y = s2.last_y)
    (hth : s1.last_theta = s2.last_theta)
    (hc1 : s1.last_steps_1 = s2.last_steps_1) (hc2 : s1.last_steps_2 = s2.last_steps_2) :
    reported_pose (encoder_callback wrap32 cos sin c s1 msg t1)
      = reported_pose (encoder_callback wrap32 cos sin c s2 msg t2) ∧
    (encoder_callback wrap32 cos sin c s1 msg t1).state.last_x
      = (encoder_callback wrap32 cos sin c s2 msg t2).state.last_x ∧
    (encoder_callback wrap32 cos sin c s1 msg t1).state.last_y
      = (encoder_callback wrap32 cos sin c s2 msg t2).state.last_y ∧
    (encoder_callback wrap32 cos sin c s1 msg t1).state.last_theta
      = (encoder_callback wrap32 cos sin c s2 msg t2).state.last_theta ∧
    (encoder_callback wrap32 cos sin c s1 msg t1).state.last_steps_1
      = (encoder_callback wrap32 cos sin c s2 msg t2).state.last_steps_1 ∧
    (encoder_callback wrap32 cos sin c s1 msg t1).state.last_steps_2
      = (encoder_callback wrap32 cos sin c s2 msg t2).state.last_steps_2 := by
  have hd : encoder_deltas wrap32 c s1 msg = encoder_deltas wrap32 c s2 msg := by
    simp only [encoder_deltas, hc1, hc2]
  have hw : u_w wrap32 c s1 msg = u_w wrap32 c s2 msg := by simp only [u_w, hd]
  have hp : u_p wrap32 c s1 msg = u_p wrap32 c s2 msg := by simp only [u_p, hd]
  simp [reported_pose, encoder_callback, hx, hy, hth, hw, hp]

/-- C15. Determinism of the pose sequence: two estimators with the same configuration and
the same initial pose and counts, fed the same sequence of encoder counts, report the same
sequence of poses, also when the time stamps of the two runs (and the two initial sample
times) differ; the pose reported by one `encoder_callback` does not depend on `now` or on
`last_sample_time`. -/
theorem pose_sequence_deterministic (cos sin : ℚ → ℚ) (c : Config) (s1 s2 : State)
    (msgs : List RoboclawEncoderSteps) (ts1 ts2 : List ℚ)
    (hx : s1.last_x = s2.last_x) (hy : s1.last_y = s2.last_y)
    (hth : s1.last_theta = s2.last_theta)
    (hc1 : s1.last_steps_1 = s2.last_steps_1) (hc2 : s1.last_steps_2 = s2.last_steps_2)
    (hl1 : ts1.length = msgs.length) (hl2 : ts2.length = msgs.length) :
    (encoder_outputs wrap32 cos sin c s1 (msgs.zip ts1)).map reported_pose
      = (encoder_outputs wrap32 cos sin c s2 (msgs.zip ts2)).map reported_pose ∧
    (∀ (msg : RoboclawEncoderSteps) (t1 t2 : ℚ),
      reported_pose (encoder_callback wrap32 cos sin c s1 msg t1)
        = reported_pose (encoder_callback wrap32 cos sin c s2 msg t2)) := by
  refine ⟨?_, fun msg t1 t2 =>
    (encoder_callback_pose_congr cos sin c s1 s2 msg t1 t2 hx hy hth hc1 hc2).1⟩
  induction msgs generalizing s1 s2 ts1 ts2 with
  | nil => simp [encoder_outputs]
  | cons m ms ih =>
    cases ts1 with
    | nil => simp at hl1
    | cons t1 ts1 =>
      cases ts2 with
      | nil => simp at hl2
      | cons t2 ts2 =>
        obtain ⟨hp, kx, ky, kth, k1, k2⟩ :=
          encoder_callback_pose_congr cos sin c s1 s2 m t1 t2 hx hy hth hc1 hc2
        have hl1' : ts1.length = ms.length := by simpa using hl1
        have hl2' : ts2.length = ms.length := by simpa using hl2
        have hrest := ih _ _ ts1 ts2 kx ky kth k1 k2 hl1' hl2'
        simp only [List.zip_cons_cons, encoder_outputs, List.map_cons]
        rw [hp]
        exact congrArg (List.cons _) hrest

/-- Witness of C15: two runs over the samples `(1, 1)`, `(3, 2)` from the origin, one
stamped `1, 2` with last sample time 0, the other stamped `5, 5` with last sample time 7. -/
theorem pose_sequence_deterministic_witness :
    (originState.last_x = ({ originState with last_time := 7 } : State).last_x ∧
      ([1, 2] : List ℚ).length = ([⟨1, 1⟩, ⟨3, 2⟩] : List RoboclawEncoderSteps).length ∧
      ([5, 5] : List ℚ).length = ([⟨1, 1⟩, ⟨3, 2⟩] : List RoboclawEncoderSteps).length) ∧
    (encoder_outputs wrap32 (fun _ => 1) (fun _ => 0) unitConfig originState
        ([(⟨1, 1⟩ : RoboclawEncoderSteps), ⟨3, 2⟩].zip [1, 2])).map reported_pose
      = (encoder_outputs wrap32 (fun _ => 1) (fun _ => 0) unitConfig
        { originState with last_time := 7 }
        ([(⟨1, 1⟩ : RoboclawEncoderSteps), ⟨3, 2⟩].zip [5, 5])).map reported_pose :=
  ⟨⟨rfl, rfl, rfl⟩,
    (pose_sequence_deterministic (fun _ => 1) (fun _ => 0) unitConfig originState
      { originState with last_time := 7 } [⟨1, 1⟩, ⟨3, 2⟩] [1, 2] [5, 5]
      rfl rfl rfl rfl rfl rfl rfl).1⟩

/-! ## C16: with `invert_motor_2` the position never moves -/

/-- With `invert_motor_2` set the two deltas entering the kinematics are opposite, so their
32-bit sum, and with it the mean displacement, is zero, also when the negation wraps. -/
theorem u_w_of_invert_motor_2 (c : Config) (s : State) (msg : RoboclawEncoderSteps)
    (hinv2 : c.invert_motor_2 = true) : u_w wrap32 c s msg = 0 := by
  have w0 : wrap32 0 = 0 := by decide
  cases hs : c.swap_motors <;>
    simp [u_w, encoder_deltas, hinv2, hs, wrap32_neg_add_self, wrap32_self_add_neg, w0]

/-- C16. With `invert_motor_2` set the estimated position never moves: for every
configuration with `invert_motor_2 = true` (`invert_motor_1` and `swap_motors` arbitrary),
every state and every encoder sample, `encoder_callback` computes `u_w = 0` (the 32-bit sum
of `-delta_2` and `delta_2` is zero also when the negation wraps), so the new `(x, y)`
equals the previous `(x, y)`; over any sequence of updates every reported position is the
initial one. -/
theorem position_frozen_by_invert_motor_2 (cos sin : ℚ → ℚ) (c : Config) (s : State)
    (msg : RoboclawEncoderSteps) (current_time : ℚ)
    (hinv2 : c.invert_motor_2 = true) :
    u_w wrap32 c s msg = 0 ∧
    ((encoder_callback wrap32 cos sin c s msg current_time).odom.position_x = s.last_x ∧
      (encoder_callback wrap32 cos sin c s msg current_time).odom.position_y = s.last_y ∧
      (encoder_callback wrap32 cos sin c s msg current_time).state.last_x = s.last_x ∧
      (encoder_callback wrap32 cos sin c s msg current_time).state.last_y = s.last_y) ∧
    (∀ (samples : List (RoboclawEncoderSteps × ℚ)) (out : EncoderOutput),
      out ∈ encoder_outputs wrap32 cos sin c s samples →
        out.odom.position_x = s.last_x ∧ out.odom.position_y = s.last_y) ∧
    (∀ samples : List (RoboclawEncoderSteps × ℚ),
      (encoder_state_after wrap32 cos sin c s samples).last_x = s.last_x ∧
      (encoder_state_after wrap32 cos sin c s samples).last_y = s.last_y) := by
  have step : ∀ (st : State) (m : RoboclawEncoderSteps) (t : ℚ),
      (encoder_callback wrap32 cos sin c st m t).odom.position_x = st.last_x ∧
      (encoder_callback wrap32 cos sin c st m t).odom.position_y = st.last_y ∧
      (encoder_callback wrap32 cos sin c st m t).state.last_x = st.last_x ∧
      (encoder_callback wrap32 cos sin c st m t).state.last_y = st.last_y := by
    intro st m t
    simp [encoder_callback, u_w_of_invert_motor_2 c st m hinv2]
  refine ⟨u_w_of_invert_motor_2 c s msg hinv2, step s msg current_time, ?_, ?_⟩
  · intro samples
    induction samples generalizing s with
    | nil => intro out h; simp [encoder_outputs] at h
    | cons sample rest ih =>
      intro out h
      obtain ⟨px, py, sx, sy⟩ := step s sample.1 sample.2
      simp only [encoder_outputs, List.mem_cons] at h
      rcases h with h | h
      · rw [h]; exact ⟨px, py⟩
      · have := ih _ out h
        rw [sx, sy] at this
        exact this
  · intro samples
    induction samples generalizing s with
    | nil => exact ⟨rfl, rfl⟩
    | cons sample rest ih =>
      obtain ⟨-, -, sx, sy⟩ := step s sample.1 sample.2
      simp only [encoder_state_after]
      have := ih (encoder_callback wrap32 cos sin c s sample.1 sample.2).state
      rw [sx, sy] at this
      exact this

/-- Witness of C16: only `invert_motor_2` set, from the origin, samples `(3, 5)` and then
`(10, 7)`: the stored position is still `(0, 0)`. -/
theorem position_frozen_by_invert_motor_2_witness :
    invert2Config.invert_motor_2 = true ∧
    (encoder_state_after wrap32 (fun _ => 1) (fun _ => 0) invert2Config originState
      [(⟨3, 5⟩, 1), (⟨10, 7⟩, 2)]).last_x = 0 ∧
    (encoder_state_after wrap32 (fun _ => 1) (fun _ => 0) invert2Config originState
      [(⟨3, 5⟩, 1), (⟨10, 7⟩, 2)]).last_y = 0 :=
  ⟨rfl, (position_frozen_by_invert_motor_2 (fun _ => 1) (fun _ => 0) invert2Config originState
    ⟨0, 0⟩ 0 rfl).2.2.2 [(⟨3, 5⟩, 1), (⟨10, 7⟩, 2)]⟩

/-! ## C17: the heading is a function of the latest counts -/

/-- The heading invariant of C17 is kept by one update: with both inversion flags false, if
the heading equals `sgn * (last_steps_2 - last_steps_1) / (steps_per_meter * base_width)`
before the update, it does so after it. -/
theorem heading_invariant_step (cos sin : ℚ → ℚ) (c : Config) (s : State)
    (msg : RoboclawEncoderSteps) (current_time : ℚ)
    (hinv1 : c.invert_motor_1 = false) (hinv2 : c.invert_motor_2 = false)
    (h : s.last_theta = (if c.swap_motors then -1 else 1)
      * ((s.last_steps_2 - s.last_steps_1 : Int) : ℚ) / (c.steps_per_meter * c.base_width)) :
    (encoder_callback id cos sin c s msg current_time).state.last_theta
      = (if c.swap_motors then -1 else 1)
        * (((encoder_callback id cos sin c s msg current_time).state.last_steps_2
            - (encoder_callback id cos sin c s msg current_time).state.last_steps_1 : Int) : ℚ)
        / (c.steps_per_meter * c.base_width) := by
  cases hs : c.swap_motors
  · rw [hs] at h
    simp only [encoder_callback, u_p, encoder_deltas, hinv1, hinv2, hs, h, id]
    push_cast
    rw [div_div]
    ring
  · rw [hs] at h
    simp only [encoder_callback, u_p, encoder_deltas, hinv1, hinv2, hs, h, id]
    push_cast
    rw [div_div]
    ring

/-- C17. Heading is a function of the latest encoder counts only: with both inversion flags
false, starting from the constructed state (`last_theta = 0`, `last_steps = (0, 0)`), counts
being treated as unbounded integers (`wrap = id`: no `int` result is reduced), after every
finite sequence of encoder updates the state satisfies
`last_theta = sgn * (last_steps_2 - last_steps_1) / (steps_per_meter * base_width)` with
`sgn = 1` when `swap_motors` is false and `sgn = -1` when it is true; the stored counts are
those of the last sample, so the heading does not depend on the intermediate samples. -/
theorem heading_from_latest_counts (cos sin : ℚ → ℚ) (c : Config) (s : State)
    (samples : List (RoboclawEncoderSteps × ℚ))
    (hinv1 : c.invert_motor_1 = false) (hinv2 : c.invert_motor_2 = false)
    (hth : s.last_theta = 0) (hc1 : s.last_steps_1 = 0) (hc2 : s.last_steps_2 = 0) :
    let final := encoder_state_after id cos sin c s samples
    final.last_theta = (if c.swap_motors then -1 else 1)
      * ((final.last_steps_2 - final.last_steps_1 : Int) : ℚ)
      / (c.steps_per_meter * c.base_width) ∧
    (∀ (earlier : List (RoboclawEncoderSteps × ℚ)) (last : RoboclawEncoderSteps × ℚ),
      samples = earlier ++ [last] →
        final.last_steps_1 = last.1.mot1_enc_steps ∧
        final.last_steps_2 = last.1.mot2_enc_steps ∧
        final.last_theta = (if c.swap_motors then -1 else 1)
          * ((last.1.mot2_enc_steps - last.1.mot1_enc_steps : Int) : ℚ)
          / (c.steps_per_meter * c.base_width)) := by
  intro final
  have inv : ∀ (l : List (RoboclawEncoderSteps × ℚ)) (st : State),
      st.last_theta = (if c.swap_motors then -1 else 1)
        * ((st.last_steps_2 - st.last_steps_1 : Int) : ℚ)
        / (c.steps_per_meter * c.base_width) →
      (encoder_state_after id cos sin c st l).last_theta = (if c.swap_motors then -1 else 1)
        * (((encoder_state_after id cos sin c st l).last_steps_2
            - (encoder_state_after id cos sin c st l).last_steps_1 : Int) : ℚ)
        / (c.steps_per_meter * c.base_width) := by
    intro l
    induction l with
    | nil => intro st h; exact h
    | cons sample rest ih =>
      intro st h
      simp only [encoder_state_after]
      exact ih _ (heading_invariant_step cos sin c st sample.1 sample.2 hinv1 hinv2 h)
  have counts : ∀ (l : List (RoboclawEncoderSteps × ℚ)) (st : State)
      (last : RoboclawEncoderSteps × ℚ),
      (encoder_state_after id cos sin c st (l ++ [last])).last_steps_1
        = last.1.mot1_enc_steps ∧
      (encoder_state_after id cos sin c st (l ++ [last])).last_steps_2
        = last.1.mot2_enc_steps := by
    intro l
    induction l with
    | nil => intro st last; exact ⟨rfl, rfl⟩
    | cons sample rest ih =>
      intro st last
      simp only [List.cons_append, encoder_state_after]
      exact ih _ last
  have h0 : s.last_theta = (if c.swap_motors then -1 else 1)
      * ((s.last_steps_2 - s.last_steps_1 : Int) : ℚ)
      / (c.steps_per_meter * c.base_width) := by
    rw [hth, hc1, hc2]
    simp
  have hfinal := inv samples s h0
  refine ⟨hfinal, ?_⟩
  intro earlier last hsplit
  have hc := counts earlier s last
  rw [← hsplit] at hc
  refine ⟨hc.1, hc.2, ?_⟩
  have := hfinal
  rw [hc.1, hc.2] at this
  exact this

/-- Witness of C17: the example configuration, from the origin, samples `(1000, 1000)` and
then `(750, 1250)`: the heading is `(1250 - 750) / (1000 * 0.5) = 1`. -/
theorem heading_from_latest_counts_witness :
    (exampleConfig.invert_motor_1 = false ∧ exampleConfig.invert_motor_2 = false ∧
      originState.last_theta = 0 ∧ originState.last_steps_1 = 0 ∧
      originState.last_steps_2 = 0) ∧
    (encoder_state_after id (fun _ => 1) (fun _ => 0) exampleConfig originState
      [(⟨1000, 1000⟩, 1), (⟨750, 1250⟩, 2)]).last_theta = 1 := by
  refine ⟨⟨rfl, rfl, rfl, rfl, rfl⟩, ?_⟩
  rw [((heading_from_latest_counts (fun _ => 1) (fun _ => 0) exampleConfig originState
    [(⟨1000, 1000⟩, 1), (⟨750, 1250⟩, 2)] rfl rfl rfl rfl rfl).2
    [(⟨1000, 1000⟩, 1)] (⟨750, 1250⟩, 2) rfl).2.2]
  norm_num [exampleConfig]

/-! ## C18: command and odometry agree -/

/-- The wheel values of a command `(vx, 0, wz)` within the bounds whose two contributions
are computed without rounding error and are the integers `k` and `j` with
`|k| + |j| < 2^30`: wheel 1 is `k - j` and wheel 2 is `k + j`. -/
theorem wheels_of_integral_command (fl : ℚ → ℚ) (c : Config) (msg : Twist) (k j : Int)
    (hvy : msg.linear_y = 0)
    (hvx : |msg.linear_x| ≤ c.max_linear_speed) (hwz : |msg.angular_z| ≤ c.max_angular_speed)
    (hk : fl (c.steps_per_meter * msg.linear_x) = (k : ℚ))
    (hj : fl (fl (fl (c.steps_per_meter * msg.angular_z) * c.base_width) / 2) = (j : ℚ))
    (hrange : |k| + |j| < 1073741824) :
    wheel_1 fl c msg = k - j ∧ wheel_2 fl c msg = k + j := by
  have cx := clip_of_abs_le _ _ hvx
  have cz := clip_of_abs_le _ _ hwz
  have fk : fits32 k := by
    unfold fits32
    rcases abs_cases k with ⟨e, _⟩ | ⟨e, _⟩ <;> rcases abs_cases j with ⟨e', _⟩ | ⟨e', _⟩ <;>
      rw [e, e'] at hrange <;> omega
  have fj : fits32 j := by
    unfold fits32
    rcases abs_cases k with ⟨e, _⟩ | ⟨e, _⟩ <;> rcases abs_cases j with ⟨e', _⟩ | ⟨e', _⟩ <;>
      rw [e, e'] at hrange <;> omega
  have fnj : fits32 (-j) := by
    unfold fits32
    rcases abs_cases k with ⟨e, _⟩ | ⟨e, _⟩ <;> rcases abs_cases j with ⟨e', _⟩ | ⟨e', _⟩ <;>
      rw [e, e'] at hrange <;> omega
  have f1 : fits32 (k + -j) := by
    unfold fits32
    rcases abs_cases k with ⟨e, _⟩ | ⟨e, _⟩ <;> rcases abs_cases j with ⟨e', _⟩ | ⟨e', _⟩ <;>
      rw [e, e'] at hrange <;> omega
  have f2 : fits32 (k + j) := by
    unfold fits32
    rcases abs_cases k with ⟨e, _⟩ | ⟨e, _⟩ <;> rcases abs_cases j with ⟨e', _⟩ | ⟨e', _⟩ <;>
      rw [e, e'] at hrange <;> omega
  have hb : base_steps fl c msg = k := by
    simp only [base_steps, cx, hk]
    exact toInt_intCast fk
  have ha : angular_value fl c msg = (j : ℚ) := by
    simp only [angular_value, cz, hj]
  have t1 : toInt (-(j : ℚ)) = -j := by
    have : (-(j : ℚ)) = ((-j : Int) : ℚ) := by push_cast; rfl
    rw [this]
    exact toInt_intCast fnj
  have t2 : toInt (j : ℚ) = j := toInt_intCast fj
  have ny1 : ¬ msg.linear_y < 0 := by rw [hvy]; exact lt_irrefl 0
  have ny2 : ¬ msg.linear_y > 0 := by rw [hvy]; exact lt_irrefl 0
  constructor
  · simp only [wheel_1, hb, ha, t1, if_neg ny1]
    rw [wrap32_of_fits f1]
    ring
  · simp only [wheel_2, hb, ha, t2, if_neg ny2]
    exact wrap32_of_fits f2

/-- C18, counterexample. `2^30` steps per meter, unit base width, no inversion, no swap,
command `(1, 0, 0)` within the bounds, `steps_per_meter*vx = 2^30` and
`steps_per_meter*wz*base_width/2 = 0` integers: the published setpoints are `(2^30, 2^30)`,
the next sample from counts `(0, 0)` is `(2^30, 2^30)`, and line 185 adds the two deltas as
32-bit `int`s: the sum wraps to `-2^31` and `u_w = -1`, not `vx = 1`. -/
theorem command_odometry_overflow :
    (fineStepsConfig.invert_motor_1 = false ∧ fineStepsConfig.invert_motor_2 = false ∧
      0 < fineStepsConfig.steps_per_meter ∧ 0 < fineStepsConfig.base_width ∧
      |(1 : ℚ)| ≤ fineStepsConfig.max_linear_speed ∧
      |(0 : ℚ)| ≤ fineStepsConfig.max_angular_speed ∧
      fineStepsConfig.steps_per_meter * 1 = ((1073741824 : Int) : ℚ) ∧
      fineStepsConfig.steps_per_meter * 0 * fineStepsConfig.base_width / 2
        = ((0 : Int) : ℚ)) ∧
    ((twist_callback id fineStepsConfig ⟨1, 0, 0, 0, 0, 0⟩).motor_vel.mot1_vel_sps
        = 1073741824 ∧
      (twist_callback id fineStepsConfig ⟨1, 0, 0, 0, 0, 0⟩).motor_vel.mot2_vel_sps
        = 1073741824) ∧
    u_w wrap32 fineStepsConfig originState
      ⟨originState.last_steps_1 + 1073741824, originState.last_steps_2 + 1073741824⟩ = -1 ∧
    u_w wrap32 fineStepsConfig originState
      ⟨originState.last_steps_1 + 1073741824, originState.last_steps_2 + 1073741824⟩
      ≠ 1 := by
  have hvx : |(1 : ℚ)| ≤ fineStepsConfig.max_linear_speed :=
    abs_le.mpr ⟨by norm_num [fineStepsConfig, unitConfig],
      by norm_num [fineStepsConfig, unitConfig]⟩
  have hwz : |(0 : ℚ)| ≤ fineStepsConfig.max_angular_speed :=
    abs_le.mpr ⟨by norm_num [fineStepsConfig, unitConfig],
      by norm_num [fineStepsConfig, unitConfig]⟩
  have hk : fineStepsConfig.steps_per_meter * 1 = ((1073741824 : Int) : ℚ) := by
    norm_num [fineStepsConfig]
  have hj : fineStepsConfig.steps_per_meter * 0 * fineStepsConfig.base_width / 2
      = ((0 : Int) : ℚ) := by
    norm_num
  have hm : (twist_callback id fineStepsConfig ⟨1, 0, 0, 0, 0, 0⟩).motor_vel.mot1_vel_sps
        = 1073741824 ∧
      (twist_callback id fineStepsConfig ⟨1, 0, 0, 0, 0, 0⟩).motor_vel.mot2_vel_sps
        = 1073741824 := by
    have e : toInt 1073741824 = 1073741824 := by
      simpa using toInt_intCast (z := 1073741824) (by decide)
    have w : wrap32 1073741824 = 1073741824 := by decide
    rw [twist_callback_motor_vel]
    norm_num [wheel_1, wheel_2, base_steps, lateral_steps, angular_value, clip,
      fineStepsConfig, unitConfig, toInt_zero, e, w]
  have hu : u_w wrap32 fineStepsConfig originState
      ⟨originState.last_steps_1 + 1073741824, originState.last_steps_2 + 1073741824⟩
      = -1 := by
    norm_num [u_w, encoder_deltas, fineStepsConfig, unitConfig, originState, wrap32]
  refine ⟨⟨rfl, rfl, ?_, ?_, hvx, hwz, hk, hj⟩, hm, hu, ?_⟩
  · norm_num [fineStepsConfig]
  · norm_num [fineStepsConfig, unitConfig]
  · rw [hu]
    norm_num

/-- C18, amended. Command and odometry agree: with both inversion flags false
(`swap_motors` either way), `steps_per_meter > 0`, `base_width > 0`, for every command
`(vx, 0, wz)` within the speed bounds for which `steps_per_meter*vx` and
`steps_per_meter*wz*base_width/2` are integers `k` and `j`, computed without rounding
error, with `|k| + |j| < 2^30`: if `(m1, m2)` are the setpoints published by
`twist_callback` and the next encoder sample is `(last_steps_1 + m1, last_steps_2 + m2)`,
both 32-bit values, then `encoder_callback` advances the position by `vx` along the
previous heading and the heading by `wz` (`u_w = vx`, `delta_theta = wz`). -/
theorem command_odometry_agree (fl : ℚ → ℚ) (cos sin : ℚ → ℚ) (c : Config) (s : State)
    (msg : Twist) (current_time : ℚ) (k j : Int)
    (hinv1 : c.invert_motor_1 = false) (hinv2 : c.invert_motor_2 = false)
    (hspm : 0 < c.steps_per_meter) (hbw : 0 < c.base_width)
    (hvy : msg.linear_y = 0)
    (hvx : |msg.linear_x| ≤ c.max_linear_speed) (hwz : |msg.angular_z| ≤ c.max_angular_speed)
    (hk : c.steps_per_meter * msg.linear_x = (k : ℚ))
    (hj : c.steps_per_meter * msg.angular_z * c.base_width / 2 = (j : ℚ))
    (hfk : fl (c.steps_per_meter * msg.linear_x) = c.steps_per_meter * msg.linear_x)
    (hfj : fl (fl (fl (c.steps_per_meter * msg.angular_z) * c.base_width) / 2)
      = c.steps_per_meter * msg.angular_z * c.base_width / 2)
    (hrange : |k| + |j| < 1073741824)
    (_hs1 : fits32 (s.last_steps_1 + (twist_callback fl c msg).motor_vel.mot1_vel_sps))
    (_hs2 : fits32 (s.last_steps_2 + (twist_callback fl c msg).motor_vel.mot2_vel_sps)) :
    let m := (twist_callback fl c msg).motor_vel
    let sample : RoboclawEncoderSteps :=
      ⟨s.last_steps_1 + m.mot1_vel_sps, s.last_steps_2 + m.mot2_vel_sps⟩
    let out := encoder_callback wrap32 cos sin c s sample current_time
    (u_w wrap32 c s sample = msg.linear_x ∧
      u_p wrap32 c s sample / c.base_width = msg.angular_z) ∧
    (out.odom.position_x = s.last_x + msg.linear_x * cos s.last_theta ∧
      out.odom.position_y = s.last_y + msg.linear_x * sin s.last_theta ∧
      out.odom.yaw = s.last_theta + msg.angular_z) := by
  intro m sample out
  obtain ⟨h1, h2⟩ := wheels_of_integral_command fl c msg k j hvy hvx hwz
    (hfk.trans hk) (hfj.trans hj) hrange
  have hs0 : c.steps_per_meter ≠ 0 := ne_of_gt hspm
  have hb0 : c.base_width ≠ 0 := ne_of_gt hbw
  have fa : fits32 (k - j) ∧ fits32 (k + j) ∧ fits32 (k - j + (k + j)) ∧
      fits32 (k + j - (k - j)) := by
    unfold fits32
    rcases abs_cases k with ⟨e, _⟩ | ⟨e, _⟩ <;> rcases abs_cases j with ⟨e', _⟩ | ⟨e', _⟩ <;>
      rw [e, e'] at hrange <;> omega
  obtain ⟨f1, f2, f3, f4⟩ := fa
  have hd : encoder_deltas wrap32 c s sample = (k - j, k + j) := by
    cases hs : c.swap_motors <;>
      simp [sample, m, twist_callback_motor_vel, encoder_deltas, hinv1, hinv2, hs, h1, h2,
        wrap32_of_fits f1, wrap32_of_fits f2]
  have hw : u_w wrap32 c s sample = msg.linear_x := by
    simp only [u_w, hd, wrap32_of_fits f3]
    push_cast
    rw [← hk]
    field_simp
    ring
  have hp : u_p wrap32 c s sample / c.base_width = msg.angular_z := by
    simp only [u_p, hd, wrap32_of_fits f4]
    push_cast
    rw [← hj]
    field_simp
    ring
  refine ⟨⟨hw, hp⟩, ?_, ?_, ?_⟩
  · simp only [out, encoder_callback, hw]
  · simp only [out, encoder_callback, hw]
  · simp only [out, encoder_callback, hp]

/-- Witness of C18 (amended): the example configuration (1000 steps per meter, base width
0.5), exact products, from the origin, command `(1, 0, 1)`: the contributions are 1000 and
250 steps, the setpoints `(750, 1250)`, and the update moves the pose to `(1, 0, 1)`. -/
theorem command_odometry_agree_witness :
    (exampleConfig.invert_motor_1 = false ∧ exampleConfig.invert_motor_2 = false ∧
      0 < exampleConfig.steps_per_meter ∧ 0 < exampleConfig.base_width ∧
      exampleConfig.steps_per_meter * 1 = ((1000 : Int) : ℚ) ∧
      exampleConfig.steps_per_meter * 1 * exampleConfig.base_width / 2
        = ((250 : Int) : ℚ) ∧
      |(1000 : Int)| + |(250 : Int)| < 1073741824) ∧
    (twist_callback id exampleConfig ⟨1, 0, 0, 0, 0, 1⟩).motor_vel.mot1_vel_sps = 750 ∧
    (twist_callback id exampleConfig ⟨1, 0, 0, 0, 0, 1⟩).motor_vel.mot2_vel_sps = 1250 ∧
    (encoder_callback wrap32 (fun _ => 1) (fun _ => 0) exampleConfig originState
      ⟨originState.last_steps_1
          + (twist_callback id exampleConfig ⟨1, 0, 0, 0, 0, 1⟩).motor_vel.mot1_vel_sps,
        originState.last_steps_2
          + (twist_callback id exampleConfig ⟨1, 0, 0, 0, 0, 1⟩).motor_vel.mot2_vel_sps⟩
      1).odom.position_x = 1 ∧
    (encoder_callback wrap32 (fun _ => 1) (fun _ => 0) exampleConfig originState
      ⟨originState.last_steps_1
          + (twist_callback id exampleConfig ⟨1, 0, 0, 0, 0, 1⟩).motor_vel.mot1_vel_sps,
        originState.last_steps_2
          + (twist_callback id exampleConfig ⟨1, 0, 0, 0, 0, 1⟩).motor_vel.mot2_vel_sps⟩
      1).odom.yaw = 1 := by
  have hspm : 0 < exampleConfig.steps_per_meter := by norm_num [exampleConfig]
  have hbw : 0 < exampleConfig.base_width := by norm_num [exampleConfig]
  have hvx : |(1 : ℚ)| ≤ exampleConfig.max_linear_speed :=
    abs_le.mpr ⟨by norm_num [exampleConfig], by norm_num [exampleConfig]⟩
  have hwz : |(1 : ℚ)| ≤ exampleConfig.max_angular_speed :=
    abs_le.mpr ⟨by norm_num [exampleConfig], by norm_num [exampleConfig]⟩
  have hk : exampleConfig.steps_per_meter * 1 = ((1000 : Int) : ℚ) := by
    norm_num [exampleConfig]
  have hj : exampleConfig.steps_per_meter * 1 * exampleConfig.base_width / 2
      = ((250 : Int) : ℚ) := by
    norm_num [exampleConfig]
  have hr : |(1000 : Int)| + |(250 : Int)| < 1073741824 := by decide
  obtain ⟨w1, w2⟩ := wheels_of_integral_command id exampleConfig ⟨1, 0, 0, 0, 0, 1⟩ 1000 250
    rfl hvx hwz hk hj hr
  have m1 : (twist_callback id exampleConfig ⟨1, 0, 0, 0, 0, 1⟩).motor_vel.mot1_vel_sps
      = 750 := by
    rw [twist_callback_motor_vel]
    simp only [w1]
    rfl
  have m2 : (twist_callback id exampleConfig ⟨1, 0, 0, 0, 0, 1⟩).motor_vel.mot2_vel_sps
      = 1250 := by
    rw [twist_callback_motor_vel]
    simp only [w2]
    rfl
  have h := command_odometry_agree id (fun _ => 1) (fun _ => 0) exampleConfig originState
    ⟨1, 0, 0, 0, 0, 1⟩ 1 1000 250 rfl rfl hspm hbw rfl hvx hwz hk hj rfl rfl hr
    (by rw [m1]; decide) (by rw [m2]; decide)
  simp only [] at h
  refine ⟨⟨rfl, rfl, hspm, hbw, hk, hj, hr⟩, m1, m2, ?_, ?_⟩
  · rw [h.2.1]; norm_num [originState]
  · rw [h.2.2.2]; norm_num [originState]

/-! ## C19: setpoint bound without lateral input -/

/-- C19. Setpoint bound without lateral input: with `steps_per_meter > 0`, `base_width > 0`,
`max_linear_speed ≥ 0` and `max_angular_speed ≥ 0`, for every setting of the inversion and
swap flags and every command `(vx, 0, wz)`, `vx` and `wz` of any size, each wheel setpoint
published by `twist_callback` has absolute value at most
`steps_per_meter*max_linear_speed + steps_per_meter*max_angular_speed*base_width/2`.
(Exact `double` products; the 32-bit conversions, sums and negations never increase a
magnitude.) -/
theorem setpoint_bound_no_lateral (c : Config) (msg : Twist)
    (hspm : 0 < c.steps_per_meter) (hbw : 0 < c.base_width)
    (hlin : 0 ≤ c.max_linear_speed) (hang : 0 ≤ c.max_angular_speed)
    (hvy : msg.linear_y = 0) :
    |(((twist_callback id c msg).motor_vel.mot1_vel_sps : Int) : ℚ)| ≤
      c.steps_per_meter * c.max_linear_speed
        + c.steps_per_meter * c.max_angular_speed * c.base_width / 2 ∧
    |(((twist_callback id c msg).motor_vel.mot2_vel_sps : Int) : ℚ)| ≤
      c.steps_per_meter * c.max_linear_speed
        + c.steps_per_meter * c.max_angular_speed * c.base_width / 2 := by
  have b1 := abs_wheel_1_le c msg hspm hbw hlin hang
  have b2 := abs_wheel_2_le c msg hspm hbw hlin hang
  rw [hvy, abs_zero, mul_zero, add_zero] at b1 b2
  have n1 := abs_neg32_le b1
  have n2 := abs_neg32_le b2
  rw [twist_callback_motor_vel]
  cases c.invert_motor_1 <;> cases c.invert_motor_2 <;> cases c.swap_motors <;>
    simp [b1, b2, n1, n2]

/-- Witness of C19: one step per meter, unit base width, both maxima 1000, motors swapped,
command `(5000, 0, -7000)`: both setpoints are within 1500. -/
theorem setpoint_bound_no_lateral_witness :
    (0 < swapConfig.steps_per_meter ∧ 0 < swapConfig.base_width ∧
      0 ≤ swapConfig.max_linear_speed ∧ 0 ≤ swapConfig.max_angular_speed) ∧
    |(((twist_callback id swapConfig ⟨5000, 0, 0, 0, 0, -7000⟩).motor_vel.mot1_vel_sps : Int)
        : ℚ)| ≤ 1500 ∧
    |(((twist_callback id swapConfig ⟨5000, 0, 0, 0, 0, -7000⟩).motor_vel.mot2_vel_sps : Int)
        : ℚ)| ≤ 1500 := by
  have h1 : 0 < swapConfig.steps_per_meter := by norm_num [swapConfig, unitConfig]
  have h2 : 0 < swapConfig.base_width := by norm_num [swapConfig, unitConfig]
  have h3 : 0 ≤ swapConfig.max_linear_speed := by norm_num [swapConfig, unitConfig]
  have h4 : 0 ≤ swapConfig.max_angular_speed := by norm_num [swapConfig, unitConfig]
  have h := setpoint_bound_no_lateral swapConfig ⟨5000, 0, 0, 0, 0, -7000⟩ h1 h2 h3 h4 rfl
  have e : swapConfig.steps_per_meter * swapConfig.max_linear_speed
      + swapConfig.steps_per_meter * swapConfig.max_angular_speed * swapConfig.base_width / 2
      = 1500 := by
    norm_num [swapConfig, unitConfig]
  rw [e] at h
  exact ⟨⟨h1, h2, h3, h4⟩, h⟩

end roboclaw
